import Mathlib

/-!
Verification development for the OpenLens tool-calling orchestration engine.

The definitions below are a shallow embedding of the TypeScript source:
  - src/src/lib/permissions.ts        (permission grants, sensitivity classifier)
  - src/src/agent/page-tools.ts       (built-in tool table)
  - src/src/entrypoints/background.ts (ensurePermission, executeStep,
                                       detectCrossOrigin, llmChat ollama branch,
                                       executeToolCall, runToolCallLoop)

External effects are modelled explicitly: `chrome.storage` state is passed as a
`List Permission`, `Date.now()` as a `now : Nat` argument, the content-script /
tab transport and MCP network as abstract function arguments, and the consent
dialog as a `DialogOutcome` value describing how the decision surface resolves.
JavaScript string truthiness is modelled by `Option` plus emptiness checks
where the source relies on it.
-/

namespace OpenLens

/-- `PermissionType` from src/src/modules/types (event-bus.ts):
`'page_read' | 'data_send' | 'page_action'`. -/
inductive PermissionType
  | page_read
  | data_send
  | page_action
  deriving DecidableEq, Repr

/-- `PermissionScope` from src/src/modules/types: `'page' | 'site' | 'session'`. -/
inductive PermissionScope
  | page
  | site
  | session
  deriving DecidableEq, Repr

/-- The stored `Permission` record (types module / permissions.ts).
`expiresAt : Option Nat` models `number | null`. -/
structure Permission where
  type : PermissionType
  scope : PermissionScope
  origin : String
  tabId : Nat
  grantedAt : Nat
  expiresAt : Option Nat
  deriving DecidableEq, Repr

/-- The predicate inside `checkPermission`'s `permissions.find(...)`
(permissions.ts lines 29-41).  `p.expiresAt && p.expiresAt < now` is a JS
truthiness test: an expiry of `0` is falsy and skips the expiry check. -/
def permissionCovers (now : Nat) (type : PermissionType) (origin : String)
    (tabId : Nat) (p : Permission) : Bool :=
  if p.type ≠ type then false
  else if (match p.expiresAt with
           | some e => e ≠ 0 && e < now
           | none => false) then false
  else match p.scope with
    | .page => p.tabId == tabId && p.origin == origin
    | .site => p.origin == origin
    | .session => true

/-- `checkPermission` (permissions.ts lines 21-42), with the stored list and
clock passed explicitly. -/
def checkPermission (perms : List Permission) (type : PermissionType)
    (origin : String) (tabId : Nat) (now : Nat) : Option Permission :=
  perms.find? (permissionCovers now type origin tabId)

/-- The new `Permission` object built by `grantPermission`
(permissions.ts lines 53-60): page scope has no expiry, other scopes expire
30 minutes (1 800 000 ms) after grant time. -/
def mkGrant (type : PermissionType) (scope : PermissionScope) (origin : String)
    (tabId : Nat) (now : Nat) : Permission :=
  { type := type, scope := scope, origin := origin, tabId := tabId,
    grantedAt := now,
    expiresAt := if scope = .page then none else some (now + 30 * 60 * 1000) }

/-- The `(type, origin, tabId)` duplicate test used by `grantPermission`'s
filter (permissions.ts lines 63-65). -/
def sameTriple (type : PermissionType) (origin : String) (tabId : Nat)
    (p : Permission) : Bool :=
  decide (p.type = type) && decide (p.origin = origin) && decide (p.tabId = tabId)

/-- `grantPermission` (permissions.ts lines 44-70): remove any existing grant
for the same `(type, origin, tabId)` triple, then append the new grant. -/
def grantPermission (perms : List Permission) (type : PermissionType)
    (scope : PermissionScope) (origin : String) (tabId : Nat) (now : Nat) :
    List Permission :=
  (perms.filter (fun p => !(sameTriple type origin tabId p)))
    ++ [mkGrant type scope origin tabId now]

/-! ## Sensitivity classifier (src/src/lib/sensitivity.ts) -/

/-- `Sensitivity = 'low' | 'medium' | 'high'`. -/
inductive Sensitivity
  | low
  | medium
  | high
  deriving DecidableEq, Repr

/-- `text` begins with `pattern` (character-list level). -/
def matchAt (text pattern : List Char) : Bool :=
  match pattern, text with
  | [], _ => true
  | _ :: _, [] => false
  | d :: ds, c :: cs => c == d && matchAt cs ds

/-- `pattern` occurs somewhere in `text` (character-list level); models the
JavaScript regex alternation / `indexOf` substring tests. -/
def occursIn (pattern : List Char) : List Char → Bool
  | [] => matchAt [] pattern
  | c :: cs => matchAt (c :: cs) pattern || occursIn pattern cs

/-- The alternatives of `HIGH_PATTERNS` (sensitivity.ts line 3), all lowercase;
the `/i` flag is modelled by lowercasing the text before matching. -/
def HIGH_PATTERNS : List String :=
  ["calendar", "schedule", "event", "meeting", "email", "draft", "order",
   "payment", "price", "budget", "name", "address", "phone", "birth",
   "health", "medical", "password", "credit", "bank", "salary"]

/-- The alternatives of `MEDIUM_PATTERNS` (sensitivity.ts line 4). -/
def MEDIUM_PATTERNS : List String :=
  ["preference", "search", "query", "pattern", "browse", "history",
   "bookmark", "wishlist", "cart", "interest"]

/-- `PATTERNS.test(text)` for a case-insensitive alternation of literals
(the text is lowercased character-wise; the patterns are already lowercase). -/
def testPatterns (pats : List String) (text : String) : Bool :=
  pats.any (fun p => occursIn p.toList (text.toList.map Char.toLower))

/-- `classifySensitivity` (sensitivity.ts lines 6-10). -/
def classifySensitivity (text : String) : Sensitivity :=
  if testPatterns HIGH_PATTERNS text then .high
  else if testPatterns MEDIUM_PATTERNS text then .medium
  else .low

/-! ## Built-in tool table (src/src/agent/page-tools.ts) -/

/-- A built-in tool entry (`PageTool`).  The `params` documentation map is not
needed by any claim and is omitted. -/
structure PageTool where
  name : String
  description : String
  requiredPermission : PermissionType
  isWriteAction : Bool
  deriving DecidableEq, Repr

/-- `PAGE_TOOLS` (page-tools.ts lines 20-61), as a list keyed by `name` in
source order. -/
def PAGE_TOOLS : List PageTool :=
  [⟨"read_page", "Extract and summarize the current page content",
      .page_read, false⟩,
   ⟨"extract_data",
      "Extract structured data (prices, links, forms, headings) from the page",
      .page_read, false⟩,
   ⟨"find_on_page", "Search for specific text on the page", .page_read, false⟩,
   ⟨"navigate", "Open a URL in a new tab", .page_action, true⟩,
   ⟨"fill_form", "Fill form fields (user must submit manually)",
      .page_action, true⟩,
   ⟨"click_element", "Click a link or button by selector or text",
      .page_action, true⟩]

/-- `getToolDef` (page-tools.ts lines 63-65): record-keyed lookup by name. -/
def getToolDef (toolName : String) : Option PageTool :=
  PAGE_TOOLS.find? (fun t => t.name == toolName)

/-! ## Providers and audit events (background.ts) -/

/-- `ProviderType = 'ollama' | 'openai' | 'anthropic' | 'openrouter'`. -/
inductive Provider
  | ollama
  | openai
  | anthropic
  | openrouter
  deriving DecidableEq, Repr

/-- The string the provider interpolates to (its TS literal value). -/
def providerName : Provider → String
  | .ollama => "ollama"
  | .openai => "openai"
  | .anthropic => "anthropic"
  | .openrouter => "openrouter"

/-- `isLocal = llmConfig.provider === 'ollama'` (background.ts line 322). -/
def isLocalProvider (p : Provider) : Bool := p == .ollama

/-- `processingLocation = isLocal ? 'local' : 'cloud'`. -/
def processingLocationOf (p : Provider) : String :=
  if isLocalProvider p then "local" else "cloud"

/-- One audit event as appended by `addAuditEvent` (background.ts line 279).
The heterogeneous `detail` payload is flattened into optional fields; the
generated `id` and `timestamp` are irrelevant to every claim and omitted. -/
structure AuditEvent where
  type : String
  origin : String
  permType : Option PermissionType := none
  scope : Option PermissionScope := none
  autoGranted : Bool := false
  reason : Option String := none
  sensitivityHint : Option String := none
  userAction : Option String := none
  detailTool : Option String := none
  detailSuccess : Option Bool := none
  iteration : Option Nat := none
  tokensInvolved : Option Nat := none
  processingLocation : String := ""
  deriving DecidableEq, Repr

/-! ## Permission enforcement: `ensurePermission` (background.ts 312-391) -/

/-- How the `SHOW_PERMISSION_DIALOG` round-trip resolves: the user decides
(`resolved granted scope`, where an undefined or denied reply is
`resolved false _`), or the call throws (`failure`). -/
inductive DialogOutcome
  | resolved (granted : Bool) (scope : PermissionScope)
  | failure (msg : String)
  deriving DecidableEq, Repr

/-- The observable outcome of one `ensurePermission` call: the boolean result,
the updated stored permission list, the audit events appended (in order), and
whether the decision surface (permission dialog) was invoked. -/
structure EnsureResult where
  granted : Bool
  perms : List Permission
  events : List AuditEvent
  dialogInvoked : Bool
  deriving Repr

/-- `ensurePermission` (background.ts lines 312-391), with storage, clock and
the decision surface passed explicitly.  Control flow: covered unexpired grant
short-circuits; local `page_read` is auto-granted at session scope; otherwise a
`permission_requested` event is emitted and the dialog consulted; on dialog
failure, local `page_action` is auto-granted at page scope and everything else
denied. -/
def ensurePermission (perms : List Permission) (now : Nat) (provider : Provider)
    (dialog : DialogOutcome) (tabId : Nat) (permType : PermissionType)
    (origin : String) (reason : String) (sensitivity : String) : EnsureResult :=
  match checkPermission perms permType origin tabId now with
  | some _ => { granted := true, perms := perms, events := [], dialogInvoked := false }
  | none =>
    let isLocal := isLocalProvider provider
    let loc := processingLocationOf provider
    if isLocal && permType == .page_read then
      { granted := true,
        perms := grantPermission perms permType .session origin tabId now,
        events := [{ type := "permission_granted", origin := origin,
                     permType := some permType, scope := some .session,
                     autoGranted := true,
                     reason := some "Local processing — data stays on device",
                     userAction := some "auto", processingLocation := loc }],
        dialogInvoked := false }
    else
      let requested : AuditEvent :=
        { type := "permission_requested", origin := origin,
          permType := some permType, reason := some reason,
          sensitivityHint := some sensitivity, processingLocation := loc }
      match dialog with
      | .resolved true scope =>
        { granted := true,
          perms := grantPermission perms permType scope origin tabId now,
          events := [requested,
            { type := "permission_granted", origin := origin,
              permType := some permType, scope := some scope,
              userAction := some "approved", processingLocation := loc }],
          dialogInvoked := true }
      | .resolved false _ =>
        { granted := false, perms := perms,
          events := [requested,
            { type := "permission_denied", origin := origin,
              permType := some permType, userAction := some "denied",
              processingLocation := loc }],
          dialogInvoked := true }
      | .failure _ =>
        if isLocal && permType == .page_action then
          { granted := true,
            perms := grantPermission perms permType .page origin tabId now,
            events := [requested,
              { type := "permission_granted", origin := origin,
                permType := some permType, scope := some .page,
                autoGranted := true,
                reason := some "Dialog unavailable, local provider",
                processingLocation := loc }],
            dialogInvoked := true }
        else
          { granted := false, perms := perms, events := [requested],
            dialogInvoked := true }

/-! ## Cross-origin monitor: `detectCrossOrigin` (background.ts 716-741) -/

/-- One plan step, restricted to the fields `detectCrossOrigin` reads.
`origin`/`sensitivity` are optional fields of `TaskStep`; absence and the
empty string are both JS-falsy, which the definitions test explicitly. -/
structure PlanStep where
  status : String
  origin : Option String
  sensitivity : Option Sensitivity
  deriving DecidableEq, Repr

/-- The plan state `detectCrossOrigin` closes over: its steps and the hostname
of `pageContext.url` (`new URL(url).hostname`; `none` models an absent
`pageContext`/`url` — URL parsing itself is outside the embedding). -/
structure PlanState where
  steps : List PlanStep
  pageHost : Option String
  deriving DecidableEq, Repr

/-- JS truthiness of an optional string (`undefined`, `null` and `''` are
falsy). -/
def truthyStr : Option String → Bool
  | none => false
  | some s => !s.isEmpty

/-- Helper for `dedupFirst`: skip elements already seen. -/
def dedupFirstAux (seen : List String) : List String → List String
  | [] => []
  | a :: l => if seen.contains a then dedupFirstAux seen l
              else a :: dedupFirstAux (seen ++ [a]) l

/-- Insertion-order deduplication, as performed by `new Set(...)` followed by
spreading (keeps the first occurrence of each element). -/
def dedupFirst (xs : List String) : List String := dedupFirstAux [] xs

/-- `Array.prototype.join(sep)`. -/
def joinSep (sep : String) : List String → String
  | [] => ""
  | [a] => a
  | a :: b :: rest => a ++ sep ++ joinSep sep (b :: rest)

/-- The `completedOrigins` set (background.ts lines 718-723): the distinct
truthy origins of completed steps, in first-occurrence order. -/
def completedOrigins (steps : List PlanStep) : List String :=
  dedupFirst
    ((steps.filter (fun s => s.status == "completed" && truthyStr s.origin)).map
      (fun s => s.origin.getD ""))

/-- `detectCrossOrigin` (background.ts lines 716-741).  Returns `none` when
there is no plan, the page-context origin is falsy, no completed step has a
truthy origin, or the page-context origin is already among the completed
origins; otherwise returns the warning string, with the sensitive-data wording
when any completed step carries high sensitivity and a provider-dependent
processing note appended. -/
def detectCrossOrigin (plan : Option PlanState) (provider : Provider) : Option String :=
  match plan with
  | none => none
  | some p =>
    match p.pageHost with
    | none => none
    | some c =>
      if c.isEmpty then none
      else if (completedOrigins p.steps).isEmpty then none
      else if (completedOrigins p.steps).contains c then none
      else
        let origins := completedOrigins p.steps ++ [c]
        let hasHigh := p.steps.any
          (fun s => s.status == "completed" && s.sensitivity == some Sensitivity.high)
        let cloudNote := if provider ≠ .ollama then
            " All this data is being sent to " ++ providerName provider ++ " cloud servers."
          else " Processing is local — data stays on device."
        if hasHigh then
          some ("Data from " ++ joinSep " + " origins
            ++ " is merging in the AI context. This includes sensitive data." ++ cloudNote)
        else
          some ("Data from " ++ joinSep " + " origins
            ++ " is merging in the AI context." ++ cloudNote)

/-- A concrete plan with a single completed step on origin `a.example` while
the page context points at `b.example` (used to test C3). -/
def c3Plan : PlanState :=
  { steps := [{ status := "completed", origin := some "a.example", sensitivity := some .low }],
    pageHost := some "b.example" }

/-! ## LLM gateway: the ollama branch of `llmChat` (background.ts 58-161) -/

/-- One tool schema as sent to the backend (`OllamaToolSchema.function`);
`paramsRepr` stands for `JSON.stringify(parameters.properties)`. -/
structure ToolSchema where
  name : String
  description : String
  paramsRepr : String
  deriving DecidableEq, Repr

/-- A chat message `\x7b role, content \x7d`. -/
structure ChatMessage where
  role : String
  content : String
  deriving DecidableEq, Repr

/-- One tool call as carried in a reply (`\x7b function: \x7b name, arguments \x7d \x7d`);
`argsRepr` stands for the serialized arguments object. -/
structure NativeToolCall where
  name : String
  argsRepr : String
  deriving DecidableEq, Repr

/-- One request to the ollama `/api/chat` endpoint: the messages and, when
present, the `tools` array. -/
structure OllamaRequest where
  messages : List ChatMessage
  tools : Option (List ToolSchema)
  deriving DecidableEq, Repr

/-- The observable outcome of one `fetch` to ollama: HTTP `ok`/`status` and
the decoded `data.message?.content` / `data.message?.tool_calls` fields. -/
structure OllamaHttpResponse where
  ok : Bool
  status : Nat
  content : Option String
  tool_calls : Option (List NativeToolCall)
  deriving Repr

/-- The result of `JSON.parse` on an extracted tool-call slice, when it
succeeds and yields an object: its `tool` and serialized `args` fields
(`argsRepr` is `\x7b\x7d` when `args` is absent, matching `parsed.args || \x7b\x7d`). -/
structure ParsedToolJson where
  tool : String
  argsRepr : String
  deriving DecidableEq, Repr

/-- `llmChat`'s return value `\x7b content, processingLocation, toolCalls? \x7d`;
an absent `toolCalls` is the empty list. -/
structure ChatResult where
  content : String
  processingLocation : String
  toolCalls : List NativeToolCall
  deriving DecidableEq, Repr

/-- The error thrown on a non-success HTTP status (`Ollama error: NNN`). -/
inductive ChatError
  | ollamaError (status : Nat)
  deriving DecidableEq, Repr

/-- `toolDescriptions` (background.ts lines 80-82): one line per tool. -/
def toolDescriptionLines (tools : List ToolSchema) : String :=
  joinSep "\n" (tools.map (fun t =>
    "- " ++ t.name ++ ": " ++ t.description ++ " (params: " ++ t.paramsRepr ++ ")"))

/-- The instruction text appended to a system message that already embeds
page content (background.ts line 88). -/
def toolInstructionsWithPage (tds : String) : String :=
  "\n\nYou already have the page content above. Answer the user's question directly using that content. Do NOT call read_page — you already have it.\n\nIf you need OTHER tools (not read_page), respond with ONLY a JSON object like:\n\x7b\"tool\": \"tool_name\", \"args\": \x7b\"param\": \"value\"\x7d\x7d\n\nAvailable tools:\n"
    ++ tds
    ++ "\n\nIMPORTANT: Answer directly using the page content provided above. Only use a tool JSON if you need something OTHER than page content."

/-- The instruction text appended to a system message without page content
(background.ts line 89). -/
def toolInstructionsNoPage (tds : String) : String :=
  "\n\nYou have access to tools. To call a tool, you MUST respond with ONLY a JSON object like this:\n\x7b\"tool\": \"tool_name\", \"args\": \x7b\"param\": \"value\"\x7d\x7d\n\nDo NOT ask the user for information. Do NOT say you need data. Just call the appropriate tool.\n\nAvailable tools:\n"
    ++ tds
    ++ "\n\nIMPORTANT: If the user asks about a web page, call read_page first. Always respond with a tool call JSON when you need information."

/-- The per-message transformation of the fallback retry (background.ts lines
84-93): system messages get the textual tool catalog and instructions
appended; other messages pass through unchanged. -/
def addToolInstructions (tds : String) (m : ChatMessage) : ChatMessage :=
  if m.role == "system" then
    { m with content := m.content ++
        (if occursIn ("Current page content:".toList) m.content.toList
         then toolInstructionsWithPage tds else toolInstructionsNoPage tds) }
  else m

/-- `fallbackMessages` (background.ts lines 84-93). -/
def fallbackMessages (messages : List ChatMessage) (tools : List ToolSchema) :
    List ChatMessage :=
  messages.map (addToolInstructions (toolDescriptionLines tools))

/-- The fixed tool-call marker searched for in reply text
(`content.indexOf` argument at background.ts lines 108 and 142). -/
def toolMarker : List Char := "\x7b\"tool\"".toList

/-- `indexOf`: position of the first occurrence of `pattern` in the list. -/
def indexOfFrom (pattern : List Char) : List Char → Option Nat
  | [] => if matchAt [] pattern then some 0 else none
  | c :: cs =>
    if matchAt (c :: cs) pattern then some 0
    else (indexOfFrom pattern cs).map (· + 1)

/-- The brace-depth scan (background.ts lines 110-115): starting at the
marker with depth 0, increment on a `\x7b`, decrement on a `\x7d`, and stop at the
first `\x7d` that brings the depth to zero, returning the number of characters
consumed; `none` when the depth never returns to zero before end-of-text. -/
def scanToClose : List Char → Int → Option Nat
  | [], _ => none
  | c :: cs, depth =>
    let d1 : Int := if c == '{' then depth + 1 else depth
    if c == '}' then
      (if d1 - 1 = 0 then some 1 else (scanToClose cs (d1 - 1)).map (· + 1))
    else (scanToClose cs d1).map (· + 1)

/-- Locate the candidate tool-call JSON slice in a reply: marker position,
end position, and the matched slice (the `startIdx`/`endIdx`/`slice` of
background.ts lines 108-117). -/
def extractToolSlice (content : String) : Option (Nat × Nat × String) :=
  match indexOfFrom toolMarker content.toList with
  | none => none
  | some si =>
    match scanToClose (content.toList.drop si) 0 with
    | none => none
    | some len => some (si, si + len, String.mk ((content.toList.drop si).take len))

/-- The lenient embedded tool-call parse (background.ts lines 107-126 and
140-157): find the marker, scan to the balanced close, `JSON.parse` the slice
(the parse itself is the abstract argument `jp`, a parse failure being `none`),
and accept only an object with a truthy `tool` field.  Every failure mode
yields `none`; the function is total, so it never raises an error. -/
def parseEmbeddedToolCall (jp : String → Option ParsedToolJson) (content : String) :
    Option NativeToolCall :=
  match extractToolSlice content with
  | none => none
  | some (si, ei, slice) =>
    if si < ei then
      match jp slice with
      | some parsed =>
        if parsed.tool ≠ "" then
          some { name := parsed.tool, argsRepr := parsed.argsRepr }
        else none
      | none => none
    else none

/-- The ollama branch of `llmChat` (background.ts lines 66-161), with the
network modelled as `backend` and `JSON.parse` of an extracted slice as `jp`.
Returns the chat result (or the thrown `Ollama error`) together with the list
of requests issued, in order. -/
def llmChatOllama (jp : String → Option ParsedToolJson)
    (backend : OllamaRequest → OllamaHttpResponse)
    (messages : List ChatMessage) (tools : Option (List ToolSchema)) :
    Except ChatError ChatResult × List OllamaRequest :=
  let toolsNonempty := match tools with
    | some ts => !ts.isEmpty
    | none => false
  let req1 : OllamaRequest :=
    { messages := messages, tools := if toolsNonempty then tools else none }
  let r1 := backend req1
  if !r1.ok && r1.status == 400 && toolsNonempty then
    -- retry once without tools, with the textual catalog in the system message
    let ts := tools.getD []
    let req2 : OllamaRequest := { messages := fallbackMessages messages ts, tools := none }
    let r2 := backend req2
    if !r2.ok then (.error (.ollamaError r2.status), [req1, req2])
    else
      let content := r2.content.getD ""
      match parseEmbeddedToolCall jp content with
      | some tc =>
        (.ok { content := "", processingLocation := "local", toolCalls := [tc] },
         [req1, req2])
      | none =>
        (.ok { content := content, processingLocation := "local", toolCalls := [] },
         [req1, req2])
  else if !r1.ok then (.error (.ollamaError r1.status), [req1])
  else
    let content := r1.content.getD ""
    let plain : Except ChatError ChatResult × List OllamaRequest :=
      if toolsNonempty then
        match parseEmbeddedToolCall jp content with
        | some tc =>
          (.ok { content := "", processingLocation := "local", toolCalls := [tc] }, [req1])
        | none =>
          (.ok { content := content, processingLocation := "local", toolCalls := [] }, [req1])
      else
        (.ok { content := content, processingLocation := "local", toolCalls := [] }, [req1])
    match r1.tool_calls with
    | some tcs =>
      if !tcs.isEmpty then
        (.ok { content := content, processingLocation := "local", toolCalls := tcs }, [req1])
      else plain
    | none => plain

/-! ## Session ledger and tool dispatch (background.ts 267-298, 822-891) -/

/-- `Math.ceil(n / 4)` on a string length. -/
def ceilDiv4 (n : Nat) : Nat := (n + 3) / 4

/-- One `DataEntry` as appended by `addDataEntry` (background.ts line 267);
generated `id`/`timestamp` omitted. -/
structure DataEntry where
  origin : String
  originType : String
  dataType : String
  tokenCount : Nat
  sensitivity : Sensitivity
  entryMethod : String
  deriving DecidableEq, Repr

/-- The mutable session-ledger portion of `sessionState` that the claims
observe. -/
structure LedgerState where
  dataEntries : List DataEntry
  auditEvents : List AuditEvent
  totalTokens : Nat
  contextUsed : Nat
  deriving DecidableEq, Repr

/-- `addDataEntry` (background.ts lines 267-277). -/
def addDataEntryS (st : LedgerState) (e : DataEntry) : LedgerState :=
  { st with
    dataEntries := st.dataEntries ++ [e]
    totalTokens := st.totalTokens + e.tokenCount
    contextUsed := st.contextUsed + e.tokenCount }

/-- `addAuditEvent` (background.ts lines 279-287). -/
def addAuditEventS (st : LedgerState) (e : AuditEvent) : LedgerState :=
  { st with auditEvents := st.auditEvents ++ [e] }

/-- Append a batch of audit events in order. -/
def appendEvents (st : LedgerState) (evs : List AuditEvent) : LedgerState :=
  evs.foldl addAuditEventS st

/-- Observable interaction trace of the dispatch path: permission checks
(`ensurePermission` calls with their result) and tool commands actually sent
to the content host, the tabs API, or an MCP server. -/
inductive TraceEvent
  | permCheck (permType : PermissionType) (granted : Bool)
  | dispatch (toolName : String)
  deriving DecidableEq, Repr

/-- A registered MCP tool (only the name matters to dispatch). -/
structure McpTool where
  name : String
  deriving DecidableEq, Repr

/-- A registered MCP server (modules/types): dispatch reads `enabled`,
`tools` and `url`. -/
structure McpServer where
  id : String
  name : String
  url : String
  enabled : Bool
  tools : List McpTool
  deriving DecidableEq, Repr

/-- How `callMcpTool` resolves: the concatenated text payload, or the thrown
error message. -/
inductive McpCallOutcome
  | ok (text : String)
  | err (msg : String)
  deriving DecidableEq, Repr

/-- The content-script / tabs response to a dispatched built-in tool command,
with `serialized` standing for `JSON.stringify` of the response object. -/
structure HostResponse where
  success : Bool
  serialized : String
  deriving DecidableEq, Repr

/-- The value `executeToolCall` resolves with. -/
inductive ToolCallResult
  | denied
  | host (r : HostResponse)
  | mcpOk (text : String)
  | mcpErr (msg : String)
  | unknownTool (name : String)
  deriving DecidableEq, Repr

/-- `JSON.stringify(result)` for each `executeToolCall` outcome. -/
def stringifyResult : ToolCallResult → String
  | .denied => "\x7b\"success\":false,\"error\":\"Permission denied\"\x7d"
  | .host r => r.serialized
  | .mcpOk t => "\x7b\"success\":true,\"data\":\"" ++ t ++ "\"\x7d"
  | .mcpErr m => "\x7b\"success\":false,\"error\":\"MCP error: " ++ m ++ "\"\x7d"
  | .unknownTool n => "\x7b\"success\":false,\"error\":\"Unknown tool: " ++ n ++ "\"\x7d"

/-- `result?.success`, as recorded in the tool-call-result audit event. -/
def resultSuccess : ToolCallResult → Bool
  | .denied => false
  | .host r => r.success
  | .mcpOk _ => true
  | .mcpErr _ => false
  | .unknownTool _ => false

/-- The observable outcome of one `executeToolCall` run. -/
structure ToolCallOutcome where
  result : ToolCallResult
  perms : List Permission
  events : List AuditEvent
  trace : List TraceEvent
  deriving Repr

/-- `executeToolCall` (background.ts lines 822-891): a built-in tool is
permission-checked through `ensurePermission` (on the origin derived from the
tab, passed here as `tabOrigin`) and dispatched only when granted; otherwise
the name is resolved against the first enabled MCP server exposing it and
invoked with no permission check; unknown names yield a structured error. -/
def executeToolCall (perms : List Permission) (now : Nat) (provider : Provider)
    (dialog : DialogOutcome) (servers : List McpServer)
    (host : String → HostResponse) (mcp : String → String → McpCallOutcome)
    (tabId : Nat) (tabOrigin : String) (toolName : String) : ToolCallOutcome :=
  match getToolDef toolName with
  | some builtIn =>
    let r := ensurePermission perms now provider dialog tabId
      builtIn.requiredPermission tabOrigin
      ("Tool \"" ++ toolName ++ "\": " ++ builtIn.description)
      (if builtIn.isWriteAction then "medium" else "low")
    if r.granted then
      { result := .host (host toolName), perms := r.perms, events := r.events,
        trace := [.permCheck builtIn.requiredPermission true, .dispatch toolName] }
    else
      { result := .denied, perms := r.perms, events := r.events,
        trace := [.permCheck builtIn.requiredPermission false] }
  | none =>
    match servers.find? (fun s => s.enabled && s.tools.any (fun t => t.name == toolName)) with
    | some server =>
      match mcp server.url toolName with
      | .ok text =>
        { result := .mcpOk text, perms := perms, events := [], trace := [.dispatch toolName] }
      | .err m =>
        { result := .mcpErr m, perms := perms, events := [], trace := [.dispatch toolName] }
    | none =>
      { result := .unknownTool toolName, perms := perms, events := [], trace := [] }

/-! ## Tool-call loop (background.ts 893-1064) -/

/-- One reply of `llmChat` as consumed by the loop: content plus tool calls
(empty list when absent). -/
structure LLMResponse where
  content : String
  toolCalls : List NativeToolCall
  deriving DecidableEq, Repr

/-- One entry of `toolCallState.calls` (timestamp omitted). -/
structure CallRecord where
  toolName : String
  argsRepr : String
  resultRepr : String
  iteration : Nat
  deriving DecidableEq, Repr

/-- The loop state: `toolCallState` plus the session ledger, the stored
permissions, the conversation, the dispatch trace, a counter of decision
surface consultations (`callIdx`) and of loop iterations executed. -/
structure ToolLoopState where
  running : Bool
  calls : List CallRecord
  finalAnswer : String
  error : Option String
  ledger : LedgerState
  perms : List Permission
  messages : List ChatMessage
  trace : List TraceEvent
  callIdx : Nat
  iterationsUsed : Nat
  deriving Repr

/-- The loop environment: clock, provider, the decision surface (indexed by
consultation count), MCP registry, content-host and MCP transports, tab id and
the tab hostname (`new URL(tab.url).hostname`, parsing abstracted). -/
structure LoopEnv where
  now : Nat
  provider : Provider
  dialogs : Nat → DialogOutcome
  servers : List McpServer
  host : String → HostResponse
  mcp : String → String → McpCallOutcome
  tabId : Nat
  tabHost : String

/-- The per-tool-call body of the loop (background.ts lines 986-1033):
tool-call-start audit event, dispatch through `executeToolCall`, call record,
a DataEntry sized from the serialized result (appended unconditionally),
tool-call-result audit event, and the two synthetic conversation messages. -/
def processOneCall (env : LoopEnv) (i : Nat) (st : ToolLoopState)
    (tc : NativeToolCall) : ToolLoopState :=
  let loc := processingLocationOf env.provider
  let st1 := { st with
    ledger := addAuditEventS st.ledger
      { type := "tool_call_start", origin := "openlens", detailTool := some tc.name,
        iteration := some (i + 1), processingLocation := loc } }
  let out := executeToolCall st1.perms env.now env.provider (env.dialogs st1.callIdx)
      env.servers env.host env.mcp env.tabId env.tabHost tc.name
  let resultStr := stringifyResult out.result
  let record : CallRecord :=
    { toolName := tc.name, argsRepr := tc.argsRepr,
      resultRepr := resultStr.take 500, iteration := i + 1 }
  let tokenCount := ceilDiv4 resultStr.length
  let entry : DataEntry :=
    { origin := "openlens", originType := "local",
      dataType := "tool:" ++ tc.name, tokenCount := tokenCount,
      sensitivity := .low, entryMethod := "tool_call" }
  let ledger2 := addAuditEventS (addDataEntryS (appendEvents st1.ledger out.events) entry)
      { type := "tool_call_result", origin := "openlens", detailTool := some tc.name,
        detailSuccess := some (resultSuccess out.result),
        tokensInvolved := some tokenCount, processingLocation := loc }
  { st1 with
    ledger := ledger2,
    calls := st1.calls ++ [record],
    perms := out.perms,
    messages := st1.messages ++
      [{ role := "assistant",
         content := "I called the tool \"" ++ tc.name ++ "\" with args " ++ tc.argsRepr ++ "." },
       { role := "user",
         content := "Tool \"" ++ tc.name ++ "\" returned: " ++ resultStr.take 3000
           ++ "\n\nNow continue answering the original question using this result." }],
    trace := st1.trace ++ out.trace,
    callIdx := st1.callIdx + 1 }

/-- `String.prototype.trim()`, at character level. -/
def trimString (s : String) : String :=
  String.mk (((s.toList.dropWhile Char.isWhitespace).reverse.dropWhile
    Char.isWhitespace).reverse)

/-- `maxIterations` (background.ts line 894). -/
def maxIterations : Nat := 5

/-- The `for` loop of `runToolCallLoop` (background.ts lines 979-1063),
structurally bounded by the remaining iteration budget.  Each iteration
consumes one backend reply (`responses i`; `Except.error` models `llmChat`
throwing): an error ends the loop in the error state; a reply with tool calls
processes each in order and continues; a tool-free reply is the final answer;
an exhausted budget yields the fixed sentinel answer. -/
def toolLoopAux (env : LoopEnv) (responses : Nat → Except String LLMResponse) :
    Nat → Nat → ToolLoopState → ToolLoopState
  | 0, _, st =>
    { st with finalAnswer := "(Reached maximum tool call iterations)", running := false }
  | rem + 1, i, st =>
    match responses i with
    | .error e =>
      { st with error := some e, running := false, iterationsUsed := st.iterationsUsed + 1 }
    | .ok resp =>
      let st1 := { st with iterationsUsed := st.iterationsUsed + 1 }
      if resp.toolCalls.isEmpty then
        { st1 with
          finalAnswer := resp.content
          running := false
          ledger := addAuditEventS st1.ledger
            { type := "llm_prompt", origin := "openlens", iteration := some (i + 1),
              tokensInvolved := some (ceilDiv4 resp.content.length),
              processingLocation := processingLocationOf env.provider } }
      else
        toolLoopAux env responses rem (i + 1) (resp.toolCalls.foldl (processOneCall env i) st1)

/-- `runToolCallLoop` (background.ts lines 893-1064).  The pre-read page
snapshot request is sent unconditionally and with no permission check (the
leading `dispatch read_page` trace event); on a successful truthy summary
(`preRead = some summary`) a DataEntry and a `read_page` call record are
created.  When a snapshot exists, a direct no-tools answer (`directResp`) is
attempted first and accepted when non-trivially long and not starting with the
tool-call marker; otherwise the tool loop runs with the page content embedded
in the system prompt. -/
def runToolCallLoop (env : LoopEnv) (perms0 : List Permission) (intent : String)
    (preRead : Option String) (directResp : Except String String)
    (responses : Nat → Except String LLMResponse) : ToolLoopState :=
  let st0 : ToolLoopState :=
    { running := true, calls := [], finalAnswer := "", error := none,
      ledger := { dataEntries := [], auditEvents := [], totalTokens := 0, contextUsed := 0 },
      perms := perms0,
      messages :=
        [{ role := "system", content := "You are a helpful browser AI assistant. Be concise and specific." },
         { role := "user", content := intent }],
      trace := [.dispatch "read_page"],
      callIdx := 0, iterationsUsed := 0 }
  let st1 : ToolLoopState := match preRead with
    | some summary =>
      let tokenCount := ceilDiv4 summary.length
      { st0 with
        ledger := addDataEntryS st0.ledger
          { origin := env.tabHost, originType := "web", dataType := "page_content",
            tokenCount := tokenCount, sensitivity := .low, entryMethod := "tool_call" }
        calls := st0.calls ++
          [{ toolName := "read_page", argsRepr := "\x7b\x7d",
             resultRepr := "Read " ++ toString tokenCount ++ " tokens from page",
             iteration := 0 }] }
    | none => st0
  let sysPrompt := match preRead with
    | some summary =>
      "You are a helpful browser AI assistant. You have access to tools. Use tools when needed. Be concise.\n\nCurrent page content:\n" ++ summary
    | none =>
      "You are a helpful browser AI assistant. You have access to tools. Use tools when needed (call read_page first if you need page content). Be concise."
  let loopStart := { st1 with
    messages :=
      [{ role := "system", content := sysPrompt }, { role := "user", content := intent }] }
  match preRead, directResp with
  | some _, .ok content =>
    let answer := trimString content
    if !answer.isEmpty && !(matchAt answer.toList toolMarker) && decide (answer.length > 10) then
      { st1 with
        finalAnswer := answer
        running := false
        ledger := addAuditEventS st1.ledger
          { type := "llm_prompt", origin := "openlens", iteration := some 0,
            tokensInvolved := some (ceilDiv4 answer.length),
            processingLocation := processingLocationOf env.provider } }
    else toolLoopAux env responses maxIterations 0 loopStart
  | some _, .error _ => toolLoopAux env responses maxIterations 0 loopStart
  | none, _ => toolLoopAux env responses maxIterations 0 loopStart

/-! ## Plan step execution: `executeStep` (background.ts 531-713) -/

/-- A plan step as consumed by `executeStep` (status/result fields of
`TaskStep` are outputs, not inputs). -/
structure StepInfo where
  title : String
  description : String
  tool : String
  requiredPermission : PermissionType
  isWriteAction : Bool
  deriving DecidableEq, Repr

/-- The content-script response to the step tool command: `success`,
`error`, the serialized `context || matches || result` payload, and
`context?.structuredData?.emailCount` (0 when absent). -/
structure HostToolResult where
  success : Bool
  errorMsg : Option String
  serializedData : String
  emailCount : Nat
  deriving DecidableEq, Repr

/-- Outcome of the post-tool LLM analysis call (background.ts lines 656-695):
no model configured, a reply, or a thrown error. -/
inductive AnalysisOutcome
  | noModel
  | ok (content : String)
  | failed (msg : String)
  deriving DecidableEq, Repr

/-- The observable outcome of one `executeStep` run: final step status and
output, the DataEntries and AuditEvents appended, the updated permission
store, and the dispatch trace. -/
structure StepOutcome where
  status : String
  llmOutput : String
  dataEntries : List DataEntry
  events : List AuditEvent
  perms : List Permission
  trace : List TraceEvent
  deriving Repr

/-- The post-permission part of `executeStep` (background.ts lines 577-712):
dispatch the tool command (only known tool names reach the content host or
tabs API), and on success create the DataEntry — sensitivity `medium` exactly
when the extracted structured data reports a positive email count, `low`
otherwise — the `tool_call` audit event, the LLM analysis output and the
closing `task_step` audit event.  Analysis token accounting is collapsed into
the flattened `llm_prompt` event. -/
def executeStepRun (provider : Provider) (origin : String) (step : StepInfo)
    (toolResult : HostToolResult) (analysis : AnalysisOutcome)
    (events0 : List AuditEvent) (perms1 : List Permission)
    (trace0 : List TraceEvent) : StepOutcome :=
  let loc := processingLocationOf provider
  let trace1 := trace0 ++ (if (getToolDef step.tool).isSome then [.dispatch step.tool] else [])
  if !toolResult.success then
    { status := "completed",
      llmOutput := "(Tool error: " ++ toolResult.errorMsg.getD "unknown" ++ ")",
      dataEntries := [], events := events0, perms := perms1, trace := trace1 }
  else
    let tokenCount := ceilDiv4 toolResult.serializedData.length
    let sensitivity := if toolResult.emailCount > 0 then Sensitivity.medium else Sensitivity.low
    let entry : DataEntry :=
      { origin := origin, originType := "page_content",
        dataType := step.tool, tokenCount := tokenCount, sensitivity := sensitivity,
        entryMethod := "tool_call" }
    let toolCallEvent : AuditEvent :=
      { type := "tool_call", origin := origin,
        detailTool := some step.tool, tokensInvolved := some tokenCount,
        processingLocation := loc }
    let llmOutput := match analysis with
      | .noModel => "(No model configured — showing raw data)"
      | .failed _ => "(LLM unavailable — showing raw data)"
      | .ok c => if c.isEmpty then "(No response)" else c
    let analysisEvents : List AuditEvent := match analysis with
      | .ok _ => [{ type := "llm_prompt", origin := "openlens", processingLocation := loc }]
      | _ => []
    let taskStepEvent : AuditEvent :=
      { type := "task_step", origin := origin,
        detailTool := some step.tool, processingLocation := loc }
    { status := "completed", llmOutput := llmOutput,
      dataEntries := [entry],
      events := events0 ++ [toolCallEvent] ++ analysisEvents ++ [taskStepEvent],
      perms := perms1, trace := trace1 }

/-- `executeStep` (background.ts lines 531-713): enforce the step permission
(`dialog1` for the decision surface), for cloud providers additionally the
`data_send` permission (`dialog2`), then run the tool and record the results;
a denial skips the step with no DataEntry. -/
def executeStep (perms : List Permission) (now : Nat) (provider : Provider)
    (dialog1 dialog2 : DialogOutcome) (tabId : Nat) (origin : String)
    (step : StepInfo) (toolResult : HostToolResult) (analysis : AnalysisOutcome) :
    StepOutcome :=
  let r1 := ensurePermission perms now provider dialog1 tabId
      step.requiredPermission origin
      ("Step \"" ++ step.title ++ "\": " ++ step.description)
      (if step.isWriteAction then "medium" else "low")
  if !r1.granted then
    { status := "skipped", llmOutput := "(Permission denied by user)",
      dataEntries := [], events := r1.events, perms := r1.perms,
      trace := [.permCheck step.requiredPermission false] }
  else if !(isLocalProvider provider) then
    let r2 := ensurePermission r1.perms now provider dialog2 tabId .data_send origin
        ("Send page content to " ++ providerName provider ++ " for analysis") "high"
    if !r2.granted then
      { status := "skipped",
        llmOutput := "(Cloud send denied — switch to local Ollama for no-cloud processing)",
        dataEntries := [], events := r1.events ++ r2.events, perms := r2.perms,
        trace := [.permCheck step.requiredPermission true, .permCheck .data_send false] }
    else
      executeStepRun provider origin step toolResult analysis
        (r1.events ++ r2.events) r2.perms
        [.permCheck step.requiredPermission true, .permCheck .data_send true]
  else
    executeStepRun provider origin step toolResult analysis r1.events r1.perms
      [.permCheck step.requiredPermission true]

/-- The plan-step normalization of `generatePlan` (background.ts lines
490-503): unknown tool names fall back to `read_page`, and the required
permission and write flag are derived from the tool table. -/
def normalizePlanStep (idx : Nat) (title description tool : String) : StepInfo :=
  let toolDef := getToolDef tool
  { title := if title.isEmpty then "Step " ++ toString (idx + 1) else title,
    description := description,
    tool := if toolDef.isSome then tool else "read_page",
    requiredPermission := (toolDef.map (fun t => t.requiredPermission)).getD .page_read,
    isWriteAction := (toolDef.map (fun t => t.isWriteAction)).getD false }

/-- Helper for `guardedTraceB`: `seen` holds the events preceding the current
position. -/
def guardedTrace : List TraceEvent → List TraceEvent → Bool
  | _, [] => true
  | seen, .permCheck pt g :: rest => guardedTrace (seen ++ [.permCheck pt g]) rest
  | seen, .dispatch cmd :: rest =>
    (match getToolDef cmd with
     | some td => seen.any (fun ev => ev == .permCheck td.requiredPermission true)
     | none => true)
    && guardedTrace (seen ++ [.dispatch cmd]) rest

/-- The guardedness predicate of claim C2 on a dispatch trace: every dispatch
of a built-in tool command is preceded by a successful permission check for
the capability that tool declares as required. -/
def guardedTraceB (tr : List TraceEvent) : Bool :=
  guardedTrace [] tr

/-- Concrete loop environment for counterexamples: a hosted (cloud) provider
whose user denies every permission dialog, no MCP servers, a content host that
always succeeds, tab 1 on origin `a.example`. -/
def cloudEnv : LoopEnv :=
  { now := 0, provider := .openai, dialogs := fun _ => .resolved false .page,
    servers := [], host := fun _ => { success := true, serialized := "\x7b\x7d" },
    mcp := fun _ _ => .err "unused", tabId := 1, tabHost := "a.example" }

/-- Concrete backend replies: the first reply asks for `read_page`, the second
is a tool-free final answer. -/
def c1Responses : Nat → Except String LLMResponse :=
  fun i =>
    if i = 0 then
      .ok { content := "", toolCalls := [{ name := "read_page", argsRepr := "\x7b\x7d" }] }
    else .ok { content := "done", toolCalls := [] }

/-- A concrete plan step asking to read the page (used for C4). -/
def c4Step : StepInfo :=
  { title := "Read current page",
    description := "Extract and analyze the content of this page",
    tool := "read_page", requiredPermission := .page_read, isWriteAction := false }

/-- A concrete successful tool result whose serialized content matches the
high-sensitivity patterns (`password`) but reports no email addresses. -/
def c4Host : HostToolResult :=
  { success := true, errorMsg := none,
    serializedData := "\x7b\"title\":\"Reset your password\"\x7d",
    emailCount := 0 }

/-- Net brace depth of a character list: occurrences of opening minus closing
braces (the quantity the scanner tracks). -/
def braceDelta (cs : List Char) : Int :=
  (cs.count '{' : Int) - (cs.count '}' : Int)

-- ===== THEOREMS =====

lemma sameTriple_mkGrant (t : PermissionType) (s : PermissionScope) (o : String)
    (tab n : Nat) : sameTriple t o tab (mkGrant t s o tab n) = true := by
  simp [sameTriple, mkGrant]

lemma filter_not_sameTriple (perms : List Permission) (t : PermissionType)
    (o : String) (tab : Nat) :
    (perms.filter (fun p => !(sameTriple t o tab p))).filter (sameTriple t o tab)
      = [] := by
  induction perms with
  | nil => simp
  | cons p ps ih =>
    by_cases h : sameTriple t o tab p = true
    · simp [List.filter_cons, h, ih]
    · simp only [Bool.not_eq_true] at h
      simp [List.filter_cons, h, ih]

lemma filter_not_idem (perms : List Permission) (t : PermissionType)
    (o : String) (tab : Nat) :
    (perms.filter (fun p => !(sameTriple t o tab p))).filter
        (fun p => !(sameTriple t o tab p))
      = perms.filter (fun p => !(sameTriple t o tab p)) := by
  induction perms with
  | nil => simp
  | cons p ps ih =>
    by_cases h : sameTriple t o tab p = true
    · simp [List.filter_cons, h, ih]
    · simp only [Bool.not_eq_true] at h
      simp [List.filter_cons, h, ih]

/-- Claim C10: `grantPermission` is idempotent per `(type, origin, tabId)`:
granting twice for the same triple leaves exactly one grant for that triple in
the stored list, namely the later one, whose scope is the later scope and whose
expiry is `null` for page scope and grant-time + 30 minutes otherwise. -/
theorem grantPermission_idempotent_per_triple (perms : List Permission)
    (t : PermissionType) (s₁ s₂ : PermissionScope) (o : String) (tab n₁ n₂ : Nat) :
    ((grantPermission (grantPermission perms t s₁ o tab n₁) t s₂ o tab n₂).filter
        (sameTriple t o tab) = [mkGrant t s₂ o tab n₂])
    ∧ (mkGrant t s₂ o tab n₂).scope = s₂
    ∧ (mkGrant t s₂ o tab n₂).expiresAt
        = (if s₂ = .page then none else some (n₂ + 30 * 60 * 1000)) := by
  refine ⟨?_, rfl, rfl⟩
  unfold grantPermission
  simp only [List.filter_append, filter_not_idem, filter_not_sameTriple]
  simp [List.filter_cons, sameTriple_mkGrant]

/-- Claim C5: with no covering unexpired grant, a request is auto-granted
without invoking the decision surface — recording a single
`permission_granted` audit event marked `autoGranted` — exactly when the
provider is the local one (`ollama`) and the capability is `page_read`; every
other combination consults the decision surface (and first emits a
`permission_requested` event). -/
theorem ensurePermission_autogrant_iff_local_read (perms : List Permission)
    (now : Nat) (provider : Provider) (dialog : DialogOutcome) (tabId : Nat)
    (permType : PermissionType) (origin reason sens : String)
    (h : checkPermission perms permType origin tabId now = none) :
    ((provider = .ollama ∧ permType = .page_read) →
      (ensurePermission perms now provider dialog tabId permType origin reason sens).granted = true
      ∧ (ensurePermission perms now provider dialog tabId permType origin reason sens).dialogInvoked = false
      ∧ ∃ e, (ensurePermission perms now provider dialog tabId permType origin reason sens).events = [e]
          ∧ e.type = "permission_granted" ∧ e.autoGranted = true)
    ∧ (¬(provider = .ollama ∧ permType = .page_read) →
      (ensurePermission perms now provider dialog tabId permType origin reason sens).dialogInvoked = true
      ∧ ∃ e rest,
          (ensurePermission perms now provider dialog tabId permType origin reason sens).events = e :: rest
          ∧ e.type = "permission_requested") := by
  constructor
  · rintro ⟨hp, ht⟩
    subst hp; subst ht
    unfold ensurePermission
    rw [h]
    exact ⟨rfl, rfl, _, rfl, rfl, rfl⟩
  · intro hc
    have hb : (isLocalProvider provider && permType == PermissionType.page_read) = false := by
      cases provider <;> cases permType <;> first | decide | simp_all [isLocalProvider]
    unfold ensurePermission
    rw [h]
    simp only [hb, Bool.false_eq_true, if_false]
    cases dialog with
    | resolved g s => cases g <;> exact ⟨rfl, _, _, rfl, rfl⟩
    | failure m =>
      by_cases hpa : (isLocalProvider provider && permType == PermissionType.page_action) = true
      · simp only [hpa, eq_self_iff_true, if_true]
        exact ⟨trivial, _, _, rfl, rfl⟩
      · simp only [Bool.not_eq_true] at hpa
        simp only [hpa, Bool.false_eq_true, if_false]
        exact ⟨trivial, _, _, rfl, rfl⟩

/-- Witness for C5 at a concrete input: empty store, local provider,
`page_read` request — auto-granted without the dialog. -/
theorem ensurePermission_autogrant_iff_local_read_witness :
    (ensurePermission [] 0 .ollama (.resolved false .page) 1 .page_read "a.example" "r" "low").granted = true
    ∧ (ensurePermission [] 0 .ollama (.resolved false .page) 1 .page_read "a.example" "r" "low").dialogInvoked = false
    ∧ ∃ e, (ensurePermission [] 0 .ollama (.resolved false .page) 1 .page_read "a.example" "r" "low").events = [e]
        ∧ e.type = "permission_granted" ∧ e.autoGranted = true :=
  (ensurePermission_autogrant_iff_local_read [] 0 .ollama (.resolved false .page)
    1 .page_read "a.example" "r" "low" rfl).1 ⟨rfl, rfl⟩

/-- Claim C6: when the decision surface is actually consulted (so not the
local-`page_read` auto-grant case) and the dialog call fails, only a
`page_action` capability under the local provider is auto-granted — at page
scope, with an `autoGranted` audit event carrying the failure reason — and
every other capability/provider combination returns `false`. -/
theorem ensurePermission_dialog_failure_fallback (perms : List Permission)
    (now : Nat) (provider : Provider) (msg : String) (tabId : Nat)
    (permType : PermissionType) (origin reason sens : String)
    (h : checkPermission perms permType origin tabId now = none)
    (hnr : ¬(provider = .ollama ∧ permType = .page_read)) :
    ((provider = .ollama ∧ permType = .page_action) →
      (ensurePermission perms now provider (.failure msg) tabId permType origin reason sens).granted = true
      ∧ (ensurePermission perms now provider (.failure msg) tabId permType origin reason sens).perms
          = grantPermission perms permType .page origin tabId now
      ∧ ∃ req e,
          (ensurePermission perms now provider (.failure msg) tabId permType origin reason sens).events = [req, e]
          ∧ e.type = "permission_granted" ∧ e.autoGranted = true
          ∧ e.scope = some .page
          ∧ e.reason = some "Dialog unavailable, local provider")
    ∧ (¬(provider = .ollama ∧ permType = .page_action) →
      (ensurePermission perms now provider (.failure msg) tabId permType origin reason sens).granted = false) := by
  constructor
  · rintro ⟨hp, ht⟩
    subst hp; subst ht
    unfold ensurePermission
    rw [h]
    exact ⟨rfl, rfl, _, _, rfl, rfl, rfl, rfl, rfl⟩
  · intro hc
    have hb : (isLocalProvider provider && permType == PermissionType.page_read) = false := by
      cases provider <;> cases permType <;> first | decide | simp_all [isLocalProvider]
    have hb2 : (isLocalProvider provider && permType == PermissionType.page_action) = false := by
      cases provider <;> cases permType <;> first | decide | simp_all [isLocalProvider]
    unfold ensurePermission
    rw [h]
    simp only [hb, hb2, Bool.false_eq_true, if_false]

/-- Witness for C6 at concrete inputs, covering both sides: local
`page_action` is auto-granted on dialog failure; a cloud `page_read` request is
denied on dialog failure. -/
theorem ensurePermission_dialog_failure_fallback_witness :
    ((ensurePermission [] 0 .ollama (.failure "err") 1 .page_action "a.example" "r" "med").granted = true
      ∧ (ensurePermission [] 0 .ollama (.failure "err") 1 .page_action "a.example" "r" "med").perms
          = grantPermission [] .page_action .page "a.example" 1 0
      ∧ ∃ req e,
          (ensurePermission [] 0 .ollama (.failure "err") 1 .page_action "a.example" "r" "med").events = [req, e]
          ∧ e.type = "permission_granted" ∧ e.autoGranted = true
          ∧ e.scope = some .page
          ∧ e.reason = some "Dialog unavailable, local provider")
    ∧ (ensurePermission [] 0 .openai (.failure "err") 1 .page_read "a.example" "r" "low").granted = false :=
  ⟨(ensurePermission_dialog_failure_fallback [] 0 .ollama "err" 1 .page_action
      "a.example" "r" "med" rfl (by simp)).1 ⟨rfl, rfl⟩,
   (ensurePermission_dialog_failure_fallback [] 0 .openai "err" 1 .page_read
      "a.example" "r" "low" rfl (by simp)).2 (by simp)⟩

lemma toList_append (a b : String) : (a ++ b).toList = a.toList ++ b.toList :=
  String.data_append a b

lemma matchAt_append_self (p t : List Char) : matchAt (p ++ t) p = true := by
  induction p with
  | nil => simp [matchAt]
  | cons c cs ih => simp [matchAt, ih]

lemma matchAt_of_append (s t p : List Char) (h : matchAt s p = true) :
    matchAt (s ++ t) p = true := by
  induction p generalizing s with
  | nil => simp [matchAt]
  | cons d ds ih =>
    cases s with
    | nil => exact absurd h (by simp [matchAt])
    | cons c cs =>
      simp only [matchAt, Bool.and_eq_true] at h
      simp only [List.cons_append, matchAt, Bool.and_eq_true]
      exact ⟨h.1, ih cs h.2⟩

lemma occursIn_append_left (p s t : List Char) (h : occursIn p s = true) :
    occursIn p (s ++ t) = true := by
  induction s with
  | nil =>
    cases p with
    | nil =>
      cases t with
      | nil => rfl
      | cons c cs => simp [occursIn, matchAt]
    | cons d ds => exact absurd h (by simp [occursIn, matchAt])
  | cons c cs ih =>
    simp only [occursIn, Bool.or_eq_true] at h
    rcases h with h | h
    · simp only [List.cons_append, occursIn, Bool.or_eq_true]
      exact Or.inl (matchAt_of_append _ _ _ h)
    · simp only [List.cons_append, occursIn, Bool.or_eq_true]
      exact Or.inr (ih h)

lemma occursIn_append_right (p s t : List Char) (h : occursIn p t = true) :
    occursIn p (s ++ t) = true := by
  induction s with
  | nil => exact h
  | cons c cs ih =>
    simp only [List.cons_append, occursIn, Bool.or_eq_true]
    exact Or.inr ih

lemma occursIn_self_append (p t : List Char) : occursIn p (p ++ t) = true := by
  cases p with
  | nil =>
    cases t with
    | nil => rfl
    | cons c cs => simp [occursIn, matchAt]
  | cons c cs =>
    simp only [List.cons_append, occursIn, Bool.or_eq_true]
    exact Or.inl (matchAt_append_self (c :: cs) t)

lemma occursIn_joinSep (sep : String) (l : List String) (a : String) (h : a ∈ l) :
    occursIn a.toList (joinSep sep l).toList = true := by
  induction l with
  | nil => exact absurd h (by simp)
  | cons b rest ih =>
    cases rest with
    | nil =>
      rcases List.mem_cons.mp h with h | h
      · subst h
        simpa [joinSep] using occursIn_self_append a.toList []
      · exact absurd h (by simp)
    | cons b₂ rest₂ =>
      rcases List.mem_cons.mp h with h | h
      · subst h
        simp only [joinSep, toList_append, List.append_assoc]
        exact occursIn_self_append _ _
      · simp only [joinSep, toList_append, List.append_assoc]
        exact occursIn_append_right _ _ _ (occursIn_append_right _ _ _ (ih h))

lemma occursIn_warning_join (a pre J M post : String)
    (h : occursIn a.toList J.toList = true) :
    occursIn a.toList (pre ++ J ++ M ++ post).toList = true := by
  simp only [toList_append, List.append_assoc]
  exact occursIn_append_right _ _ _ (occursIn_append_left _ _ _ h)

lemma occursIn_warning_mid (a pre J M post : String)
    (h : occursIn a.toList M.toList = true) :
    occursIn a.toList (pre ++ J ++ M ++ post).toList = true := by
  simp only [toList_append, List.append_assoc]
  exact occursIn_append_right _ _ _
    (occursIn_append_right _ _ _ (occursIn_append_left _ _ _ h))

/-- Counterexample to claim C3: `detectCrossOrigin` does not wait for a second
distinct completed-step origin.  With exactly one distinct completed-step
origin (`a.example`) and a page-context origin (`b.example`) outside that set,
it already returns a warning, contradicting "returns no warning when fewer
than two distinct completed-step origins exist". -/
theorem detectCrossOrigin_warns_with_one_completed_origin :
    (completedOrigins c3Plan.steps).length = 1
    ∧ detectCrossOrigin (some c3Plan) .ollama
        = some "Data from a.example + b.example is merging in the AI context. Processing is local — data stays on device." := by
  decide

/-- Claim C3 as amended: `detectCrossOrigin` is a pure function (so it cannot
block execution) that returns a warning exactly when the page-context origin is
truthy, at least one completed step has a truthy origin, and the page-context
origin is not among the distinct completed-step origins; the warning names
every distinct completed-step origin and the page-context origin, and carries
the sensitive-data wording whenever some completed step has high sensitivity;
with no plan it returns nothing. -/
theorem detectCrossOrigin_characterization (p : PlanState) (provider : Provider) :
    ((detectCrossOrigin (some p) provider).isSome = true ↔
      ∃ c, p.pageHost = some c ∧ c.isEmpty = false
        ∧ (completedOrigins p.steps).isEmpty = false
        ∧ (completedOrigins p.steps).contains c = false)
    ∧ (∀ w, detectCrossOrigin (some p) provider = some w →
        (∀ o ∈ completedOrigins p.steps, occursIn o.toList w.toList = true)
        ∧ (∀ c, p.pageHost = some c → occursIn c.toList w.toList = true)
        ∧ (p.steps.any
              (fun s => s.status == "completed" && s.sensitivity == some Sensitivity.high) = true →
            occursIn "This includes sensitive data.".toList w.toList = true))
    ∧ detectCrossOrigin none provider = none := by
  refine ⟨?_, ?_, rfl⟩
  · cases hph : p.pageHost with
    | none => simp [detectCrossOrigin, hph]
    | some c =>
      by_cases h1 : c.isEmpty <;>
        by_cases h2 : (completedOrigins p.steps).isEmpty <;>
          by_cases h3 : (completedOrigins p.steps).contains c <;>
            by_cases h4 : (p.steps.any
              (fun s => s.status == "completed" && s.sensitivity == some Sensitivity.high)) = true <;>
              simp [detectCrossOrigin, hph, h1, h2, h3, h4]
  · intro w hw
    obtain ⟨steps, ph⟩ := p
    cases ph with
    | none => simp [detectCrossOrigin] at hw
    | some c =>
      simp only [detectCrossOrigin] at hw
      by_cases h1 : c.isEmpty = true
      · rw [if_pos h1] at hw; exact absurd hw (by simp)
      rw [if_neg h1] at hw
      by_cases h2 : (completedOrigins steps).isEmpty = true
      · rw [if_pos h2] at hw; exact absurd hw (by simp)
      rw [if_neg h2] at hw
      by_cases h3 : (completedOrigins steps).contains c = true
      · rw [if_pos h3] at hw; exact absurd hw (by simp)
      rw [if_neg h3] at hw
      by_cases h4 : (steps.any
          (fun s => s.status == "completed" && s.sensitivity == some Sensitivity.high)) = true
      · rw [if_pos h4] at hw
        injection hw with hS
        subst hS
        refine ⟨fun o ho => ?_, fun c₂ hc₂ => ?_, fun _ => ?_⟩
        · exact occursIn_warning_join o "Data from " _ _ _
            (occursIn_joinSep " + " _ o (List.mem_append_left _ ho))
        · injection hc₂ with hc₃
          subst hc₃
          exact occursIn_warning_join c "Data from " _ _ _
            (occursIn_joinSep " + " _ c
              (List.mem_append_right _ (List.mem_singleton_self c)))
        · exact occursIn_warning_mid _ "Data from " _
            " is merging in the AI context. This includes sensitive data." _ (by decide)
      · rw [if_neg h4] at hw
        injection hw with hS
        subst hS
        refine ⟨fun o ho => ?_, fun c₂ hc₂ => ?_, fun hcon => ?_⟩
        · exact occursIn_warning_join o "Data from " _ _ _
            (occursIn_joinSep " + " _ o (List.mem_append_left _ ho))
        · injection hc₂ with hc₃
          subst hc₃
          exact occursIn_warning_join c "Data from " _ _ _
            (occursIn_joinSep " + " _ c
              (List.mem_append_right _ (List.mem_singleton_self c)))
        · exact absurd hcon h4

lemma addAuditEventS_dataEntries (st : LedgerState) (e : AuditEvent) :
    (addAuditEventS st e).dataEntries = st.dataEntries := rfl

lemma addDataEntryS_dataEntries (st : LedgerState) (e : DataEntry) :
    (addDataEntryS st e).dataEntries = st.dataEntries ++ [e] := rfl

lemma appendEvents_dataEntries (evs : List AuditEvent) (st : LedgerState) :
    (appendEvents st evs).dataEntries = st.dataEntries := by
  induction evs generalizing st with
  | nil => rfl
  | cons e es ih =>
    show (appendEvents (addAuditEventS st e) es).dataEntries = st.dataEntries
    rw [ih]
    rfl

lemma processOneCall_appends_entry (env : LoopEnv) (i : Nat) (st : ToolLoopState)
    (tc : NativeToolCall) :
    ∃ e, (processOneCall env i st tc).ledger.dataEntries = st.ledger.dataEntries ++ [e]
      ∧ e.dataType = "tool:" ++ tc.name ∧ e.sensitivity = .low ∧ e.origin = "openlens" := by
  refine ⟨{ origin := "openlens"
            originType := "local"
            dataType := "tool:" ++ tc.name
            tokenCount := ceilDiv4 (stringifyResult (executeToolCall st.perms env.now
              env.provider (env.dialogs st.callIdx) env.servers env.host env.mcp
              env.tabId env.tabHost tc.name).result).length
            sensitivity := .low
            entryMethod := "tool_call" }, ?_, rfl, rfl, rfl⟩
  simp only [processOneCall, addAuditEventS_dataEntries, addDataEntryS_dataEntries,
    appendEvents_dataEntries]

lemma executeStepRun_trace (provider : Provider) (origin : String) (step : StepInfo)
    (toolResult : HostToolResult) (analysis : AnalysisOutcome)
    (events0 : List AuditEvent) (perms1 : List Permission) (trace0 : List TraceEvent) :
    (executeStepRun provider origin step toolResult analysis events0 perms1 trace0).trace
      = trace0 ++ (if (getToolDef step.tool).isSome then [.dispatch step.tool] else []) := by
  unfold executeStepRun
  by_cases hs : toolResult.success = true
  · simp [hs]
  · simp only [Bool.not_eq_true] at hs
    simp [hs]

lemma executeStepRun_entry_sensitivity (provider : Provider) (origin : String)
    (step : StepInfo) (toolResult : HostToolResult) (analysis : AnalysisOutcome)
    (events0 : List AuditEvent) (perms1 : List Permission) (trace0 : List TraceEvent) :
    ∀ e ∈ (executeStepRun provider origin step toolResult analysis events0 perms1 trace0).dataEntries,
      e.sensitivity = (if toolResult.emailCount > 0 then Sensitivity.medium else Sensitivity.low) := by
  intro e he
  unfold executeStepRun at he
  by_cases hs : toolResult.success = true
  · simp only [hs, Bool.not_true, Bool.false_eq_true, if_false, List.mem_singleton] at he
    subst he
    rfl
  · simp only [Bool.not_eq_true] at hs
    simp [hs] at he

/-- Counterexample to claim C1: in the tool-call loop, a dispatch whose
permission check returned `false` does not leave the dataEntries list
unchanged.  With a hosted provider and a user who denies the dialog, the
`read_page` dispatch is denied (`permCheck page_read false` in the trace, and
no `dispatch` for it), yet a DataEntry with dataType `tool:read_page` is
appended for it. -/
theorem toolLoop_dataEntry_despite_denied_permission :
    (runToolCallLoop cloudEnv [] "what is on this page" none (.error "no page") c1Responses).trace
      = [.dispatch "read_page", .permCheck .page_read false]
    ∧ ((runToolCallLoop cloudEnv [] "what is on this page" none (.error "no page")
        c1Responses).ledger.dataEntries.map (fun e => e.dataType)) = ["tool:read_page"] := by
  decide

/-- Claim C1 as amended: in the plan-execution path (`executeStep`) a failed
permission check (a `permCheck _ false` in the trace) leaves the DataEntry
list empty; in the tool-call loop, however, each dispatched tool call appends
exactly one DataEntry — attributed to that tool — regardless of the
permission outcome. -/
theorem dataEntry_creation_vs_permission :
    (∀ (perms : List Permission) (now : Nat) (provider : Provider)
        (d1 d2 : DialogOutcome) (tabId : Nat) (origin : String) (step : StepInfo)
        (toolResult : HostToolResult) (analysis : AnalysisOutcome) (pt : PermissionType),
      TraceEvent.permCheck pt false ∈
          (executeStep perms now provider d1 d2 tabId origin step toolResult analysis).trace →
      (executeStep perms now provider d1 d2 tabId origin step toolResult analysis).dataEntries = [])
    ∧ (∀ (env : LoopEnv) (i : Nat) (st : ToolLoopState) (tc : NativeToolCall),
      ∃ e, (processOneCall env i st tc).ledger.dataEntries = st.ledger.dataEntries ++ [e]
        ∧ e.dataType = "tool:" ++ tc.name) := by
  constructor
  · intro perms now provider d1 d2 tabId origin step toolResult analysis pt hmem
    simp only [executeStep] at hmem ⊢
    by_cases hg1 : (ensurePermission perms now provider d1 tabId step.requiredPermission origin
        ("Step \"" ++ step.title ++ "\": " ++ step.description)
        (if step.isWriteAction then "medium" else "low")).granted = true
    case neg =>
      simp only [Bool.not_eq_true] at hg1
      simp [hg1]
    case pos =>
      simp only [hg1, Bool.not_true, Bool.false_eq_true, if_false] at hmem ⊢
      by_cases hloc : isLocalProvider provider = true
      · simp only [hloc, Bool.not_true, Bool.false_eq_true, if_false] at hmem ⊢
        rw [executeStepRun_trace] at hmem
        rcases List.mem_append.mp hmem with h | h
        · simp at h
        · by_cases hd : (getToolDef step.tool).isSome = true
          · simp [hd] at h
          · simp only [Bool.not_eq_true] at hd
            simp [hd] at h
      · simp only [Bool.not_eq_true] at hloc
        simp only [hloc, Bool.not_false, eq_self_iff_true, if_true] at hmem ⊢
        by_cases hg2 : (ensurePermission (ensurePermission perms now provider d1 tabId
            step.requiredPermission origin
            ("Step \"" ++ step.title ++ "\": " ++ step.description)
            (if step.isWriteAction then "medium" else "low")).perms now provider d2 tabId
            .data_send origin
            ("Send page content to " ++ providerName provider ++ " for analysis")
            "high").granted = true
        · simp only [hg2, Bool.not_true, Bool.false_eq_true, if_false] at hmem ⊢
          rw [executeStepRun_trace] at hmem
          rcases List.mem_append.mp hmem with h | h
          · simp at h
          · by_cases hd : (getToolDef step.tool).isSome = true
            · simp [hd] at h
            · simp only [Bool.not_eq_true] at hd
              simp [hd] at h
        · simp only [Bool.not_eq_true] at hg2
          simp [hg2]
  · intro env i st tc
    obtain ⟨e, he, h1, _, _⟩ := processOneCall_appends_entry env i st tc
    exact ⟨e, he, h1⟩

/-- Witness for the amended C1 at concrete inputs: a denied step permission
(hosted provider, dialog denied) leaves no DataEntry, and one loop tool call
appends exactly one entry attributed to it. -/
theorem dataEntry_creation_vs_permission_witness :
    (executeStep [] 0 .openai (.resolved false .page) (.resolved false .page) 1 "a.example"
        c4Step c4Host .noModel).dataEntries = []
    ∧ ∃ e, (processOneCall cloudEnv 0
          { running := true, calls := [], finalAnswer := "", error := none,
            ledger := { dataEntries := [], auditEvents := [], totalTokens := 0, contextUsed := 0 },
            perms := [], messages := [], trace := [], callIdx := 0, iterationsUsed := 0 }
          { name := "read_page", argsRepr := "\x7b\x7d" }).ledger.dataEntries
        = [] ++ [e] ∧ e.dataType = "tool:" ++ "read_page" :=
  ⟨dataEntry_creation_vs_permission.1 [] 0 .openai (.resolved false .page)
      (.resolved false .page) 1 "a.example" c4Step c4Host .noModel .page_read (by decide),
   dataEntry_creation_vs_permission.2 cloudEnv 0 _ _⟩

/-- Counterexample to claim C2: the pre-read page snapshot that the loop
records as a `read_page` call is dispatched with no prior permission check.
Its dispatch is the first trace event, so no `ensure` call precedes it, and a
`page_content` DataEntry is created from it — under a hosted provider, with
the decision surface never consulted. -/
theorem preread_dispatch_unguarded :
    guardedTraceB (runToolCallLoop cloudEnv [] "summarize"
        (some "The quarterly report lists revenue figures")
        (.ok "Here is a direct answer about the page content.")
        (fun _ => .ok { content := "x", toolCalls := [] })).trace = false
    ∧ (runToolCallLoop cloudEnv [] "summarize"
        (some "The quarterly report lists revenue figures")
        (.ok "Here is a direct answer about the page content.")
        (fun _ => .ok { content := "x", toolCalls := [] })).trace = [.dispatch "read_page"]
    ∧ ((runToolCallLoop cloudEnv [] "summarize"
        (some "The quarterly report lists revenue figures")
        (.ok "Here is a direct answer about the page content.")
        (fun _ => .ok { content := "x", toolCalls := [] })).ledger.dataEntries.map
          (fun e => e.dataType)) = ["page_content"] := by
  decide

/-- Claim C2 as amended: every tool command dispatched through
`executeToolCall` or `executeStep` is preceded by a successful
`ensurePermission` check for the capability the tool declares as required
(for `executeStep` under the plan invariant, established by the
plan-normalization of `generatePlan`, that the step permission matches its
tool); the pre-read snapshot, by contrast, is dispatched without any check
(see the counterexample). -/
theorem dispatch_guarded_in_tool_executors :
    (∀ (perms : List Permission) (now : Nat) (provider : Provider)
        (dialog : DialogOutcome) (servers : List McpServer)
        (host : String → HostResponse) (mcp : String → String → McpCallOutcome)
        (tabId : Nat) (tabOrigin toolName : String),
      guardedTraceB (executeToolCall perms now provider dialog servers host mcp
        tabId tabOrigin toolName).trace = true)
    ∧ (∀ (perms : List Permission) (now : Nat) (provider : Provider)
        (d1 d2 : DialogOutcome) (tabId : Nat) (origin : String) (step : StepInfo)
        (toolResult : HostToolResult) (analysis : AnalysisOutcome) (td : PageTool),
      getToolDef step.tool = some td →
      step.requiredPermission = td.requiredPermission →
      guardedTraceB (executeStep perms now provider d1 d2 tabId origin step
        toolResult analysis).trace = true)
    ∧ (∀ (idx : Nat) (title description tool : String),
      ∃ td, getToolDef (normalizePlanStep idx title description tool).tool = some td
        ∧ (normalizePlanStep idx title description tool).requiredPermission
            = td.requiredPermission) := by
  refine ⟨?_, ?_, ?_⟩
  · intro perms now provider dialog servers host mcp tabId tabOrigin toolName
    rcases hdef : getToolDef toolName with _ | b
    · simp only [executeToolCall, hdef]
      rcases hfind : servers.find? (fun s => s.enabled && s.tools.any (fun t => t.name == toolName)) with _ | server
      · simp [guardedTraceB, guardedTrace, hfind]
      · rcases hmcp : mcp server.url toolName with text | m <;>
          simp [guardedTraceB, guardedTrace, hdef, hfind, hmcp]
    · simp only [executeToolCall, hdef]
      by_cases hg : (ensurePermission perms now provider dialog tabId b.requiredPermission
          tabOrigin ("Tool \"" ++ toolName ++ "\": " ++ b.description)
          (if b.isWriteAction then "medium" else "low")).granted = true
      · simp [hg, guardedTraceB, guardedTrace, hdef]
      · simp only [Bool.not_eq_true] at hg
        simp [hg, guardedTraceB, guardedTrace]
  · intro perms now provider d1 d2 tabId origin step toolResult analysis td hdef hreq
    simp only [executeStep]
    by_cases hg1 : (ensurePermission perms now provider d1 tabId step.requiredPermission origin
        ("Step \"" ++ step.title ++ "\": " ++ step.description)
        (if step.isWriteAction then "medium" else "low")).granted = true
    case neg =>
      simp only [Bool.not_eq_true] at hg1
      simp [hg1, guardedTraceB, guardedTrace]
    case pos =>
      simp only [hg1, Bool.not_true, Bool.false_eq_true, if_false]
      by_cases hloc : isLocalProvider provider = true
      · simp only [hloc, Bool.not_true, Bool.false_eq_true, if_false]
        rw [guardedTraceB, executeStepRun_trace]
        simp [guardedTrace, hdef, hreq]
      · simp only [Bool.not_eq_true] at hloc
        simp only [hloc, Bool.not_false, eq_self_iff_true, if_true]
        by_cases hg2 : (ensurePermission (ensurePermission perms now provider d1 tabId
            step.requiredPermission origin
            ("Step \"" ++ step.title ++ "\": " ++ step.description)
            (if step.isWriteAction then "medium" else "low")).perms now provider d2 tabId
            .data_send origin
            ("Send page content to " ++ providerName provider ++ " for analysis")
            "high").granted = true
        · simp only [hg2, Bool.not_true, Bool.false_eq_true, if_false]
          rw [guardedTraceB, executeStepRun_trace]
          simp [guardedTrace, hdef, hreq]
        · simp only [Bool.not_eq_true] at hg2
          simp [hg2, guardedTraceB, guardedTrace]
  · intro idx title description tool
    rcases hdef : getToolDef tool with _ | td
    · refine ⟨⟨"read_page", "Extract and summarize the current page content",
        .page_read, false⟩, ?_, ?_⟩ <;> (simp [normalizePlanStep, hdef]; try rfl)
    · exact ⟨td, by simp [normalizePlanStep, hdef], by simp [normalizePlanStep, hdef]⟩

/-- Witness for the amended C2 at concrete inputs: a concrete
`executeToolCall` and `executeStep` run, each with a guarded trace. -/
theorem dispatch_guarded_in_tool_executors_witness :
    guardedTraceB (executeToolCall [] 0 .ollama (.resolved false .page) []
        (fun _ => { success := true, serialized := "\x7b\x7d" }) (fun _ _ => .err "unused")
        1 "a.example" "read_page").trace = true
    ∧ guardedTraceB (executeStep [] 0 .ollama (.resolved false .page) (.resolved false .page)
        1 "a.example" c4Step c4Host .noModel).trace = true :=
  ⟨dispatch_guarded_in_tool_executors.1 [] 0 .ollama (.resolved false .page) []
      (fun _ => { success := true, serialized := "\x7b\x7d" }) (fun _ _ => .err "unused")
      1 "a.example" "read_page",
   dispatch_guarded_in_tool_executors.2.1 [] 0 .ollama (.resolved false .page)
      (.resolved false .page) 1 "a.example" c4Step c4Host .noModel
      ⟨"read_page", "Extract and summarize the current page content", .page_read, false⟩
      (by decide) (by decide)⟩

/-- Counterexample to claim C4: DataEntry sensitivity is not derived by
pattern classification over the serialized content.  A successful `read_page`
step whose serialized content contains `password` (classified `high` by
`classifySensitivity`) produces a DataEntry with sensitivity `low`, because
`executeStep` only checks the extracted email count. -/
theorem dataEntry_sensitivity_not_pattern_classified :
    (executeStep [] 0 .ollama (.resolved false .page) (.resolved false .page) 1 "a.example"
        c4Step c4Host .noModel).dataEntries.map (fun e => e.sensitivity) = [Sensitivity.low]
    ∧ classifySensitivity c4Host.serializedData = Sensitivity.high
    ∧ Sensitivity.low ≠ Sensitivity.high := by
  decide

/-- Claim C4 as amended: each DataEntry sensitivity is assigned exactly once,
at creation, and never recomputed (the ledger is append-only), but not by
pattern classification: `executeStep` assigns `medium` exactly when the
extracted structured data reports a positive email count and `low` otherwise,
and the tool-call loop always assigns `low`. -/
theorem dataEntry_sensitivity_assignment :
    (∀ (perms : List Permission) (now : Nat) (provider : Provider)
        (d1 d2 : DialogOutcome) (tabId : Nat) (origin : String) (step : StepInfo)
        (toolResult : HostToolResult) (analysis : AnalysisOutcome),
      ∀ e ∈ (executeStep perms now provider d1 d2 tabId origin step toolResult analysis).dataEntries,
        e.sensitivity = (if toolResult.emailCount > 0 then Sensitivity.medium else Sensitivity.low))
    ∧ (∀ (env : LoopEnv) (i : Nat) (st : ToolLoopState) (tc : NativeToolCall),
      ∃ e, (processOneCall env i st tc).ledger.dataEntries = st.ledger.dataEntries ++ [e]
        ∧ e.sensitivity = Sensitivity.low) := by
  constructor
  · intro perms now provider d1 d2 tabId origin step toolResult analysis e he
    simp only [executeStep] at he
    by_cases hg1 : (ensurePermission perms now provider d1 tabId step.requiredPermission origin
        ("Step \"" ++ step.title ++ "\": " ++ step.description)
        (if step.isWriteAction then "medium" else "low")).granted = true
    case neg =>
      simp only [Bool.not_eq_true] at hg1
      simp [hg1] at he
    case pos =>
      simp only [hg1, Bool.not_true, Bool.false_eq_true, if_false] at he
      by_cases hloc : isLocalProvider provider = true
      · simp only [hloc, Bool.not_true, Bool.false_eq_true, if_false] at he
        exact executeStepRun_entry_sensitivity _ _ _ _ _ _ _ _ e he
      · simp only [Bool.not_eq_true] at hloc
        simp only [hloc, Bool.not_false, eq_self_iff_true, if_true] at he
        by_cases hg2 : (ensurePermission (ensurePermission perms now provider d1 tabId
            step.requiredPermission origin
            ("Step \"" ++ step.title ++ "\": " ++ step.description)
            (if step.isWriteAction then "medium" else "low")).perms now provider d2 tabId
            .data_send origin
            ("Send page content to " ++ providerName provider ++ " for analysis")
            "high").granted = true
        · simp only [hg2, Bool.not_true, Bool.false_eq_true, if_false] at he
          exact executeStepRun_entry_sensitivity _ _ _ _ _ _ _ _ e he
        · simp only [Bool.not_eq_true] at hg2
          simp [hg2] at he
  · intro env i st tc
    obtain ⟨e, he, _, h2, _⟩ := processOneCall_appends_entry env i st tc
    exact ⟨e, he, h2⟩

/-- Witness for the amended C4 at concrete inputs: the concrete step of the
counterexample obeys the email-count rule, and a concrete loop call appends a
`low` entry. -/
theorem dataEntry_sensitivity_assignment_witness :
    (∀ e ∈ (executeStep [] 0 .ollama (.resolved false .page) (.resolved false .page)
        1 "a.example" c4Step c4Host .noModel).dataEntries,
      e.sensitivity = (if c4Host.emailCount > 0 then Sensitivity.medium else Sensitivity.low))
    ∧ ∃ e, (processOneCall cloudEnv 1
          { running := true, calls := [], finalAnswer := "", error := none,
            ledger := { dataEntries := [], auditEvents := [], totalTokens := 0, contextUsed := 0 },
            perms := [], messages := [], trace := [], callIdx := 0, iterationsUsed := 0 }
          { name := "find_on_page", argsRepr := "\x7b\x7d" }).ledger.dataEntries
        = [] ++ [e] ∧ e.sensitivity = Sensitivity.low :=
  ⟨dataEntry_sensitivity_assignment.1 [] 0 .ollama (.resolved false .page)
      (.resolved false .page) 1 "a.example" c4Step c4Host .noModel,
   dataEntry_sensitivity_assignment.2 cloudEnv 1 _ _⟩

/-- Witness for the amended C3 at a concrete input: the plan of the
counterexample yields a warning naming the completed-step origin, and the
no-plan case yields nothing. -/
theorem detectCrossOrigin_characterization_witness :
    occursIn "a.example".toList
      ("Data from a.example + b.example is merging in the AI context. Processing is local — data stays on device.").toList = true
    ∧ detectCrossOrigin none .ollama = none :=
  ⟨((detectCrossOrigin_characterization c3Plan .ollama).2.1 _ (by decide)).1 "a.example"
      (by decide),
   (detectCrossOrigin_characterization c3Plan .ollama).2.2⟩

lemma foldl_processOneCall_inv (env : LoopEnv) (i : Nat) :
    ∀ (tcs : List NativeToolCall) (st : ToolLoopState),
      (tcs.foldl (processOneCall env i) st).iterationsUsed = st.iterationsUsed
      ∧ (tcs.foldl (processOneCall env i) st).error = st.error := by
  intro tcs
  induction tcs with
  | nil => intro st; exact ⟨rfl, rfl⟩
  | cons tc tcs ih =>
    intro st
    refine ⟨?_, ?_⟩
    · show (tcs.foldl (processOneCall env i) (processOneCall env i st tc)).iterationsUsed
        = st.iterationsUsed
      rw [(ih _).1]
      rfl
    · show (tcs.foldl (processOneCall env i) (processOneCall env i st tc)).error = st.error
      rw [(ih _).2]
      rfl

lemma toolLoopAux_iterations_le (env : LoopEnv)
    (responses : Nat → Except String LLMResponse) :
    ∀ (rem i : Nat) (st : ToolLoopState),
      (toolLoopAux env responses rem i st).iterationsUsed ≤ st.iterationsUsed + rem := by
  intro rem
  induction rem with
  | zero => intro i st; exact Nat.le_refl _
  | succ rem ih =>
    intro i st
    rcases hr : responses i with e | resp
    · simp only [toolLoopAux, hr]
      show st.iterationsUsed + 1 ≤ st.iterationsUsed + (rem + 1)
      omega
    · by_cases hc : resp.toolCalls.isEmpty = true
      · simp only [toolLoopAux, hr, hc, eq_self_iff_true, if_true]
        show st.iterationsUsed + 1 ≤ st.iterationsUsed + (rem + 1)
        omega
      · simp only [Bool.not_eq_true] at hc
        simp only [toolLoopAux, hr, hc, Bool.false_eq_true, if_false]
        refine le_trans (ih _ _) ?_
        rw [(foldl_processOneCall_inv env i _ _).1]
        show st.iterationsUsed + 1 + rem ≤ st.iterationsUsed + (rem + 1)
        omega

lemma toolLoopAux_exhaust (env : LoopEnv)
    (responses : Nat → Except String LLMResponse) :
    ∀ (rem i : Nat) (st : ToolLoopState),
      st.error = none →
      (∀ j, i ≤ j → j < i + rem → ∃ r, responses j = Except.ok r ∧ r.toolCalls ≠ []) →
      (toolLoopAux env responses rem i st).finalAnswer
          = "(Reached maximum tool call iterations)"
      ∧ (toolLoopAux env responses rem i st).running = false
      ∧ (toolLoopAux env responses rem i st).error = none := by
  intro rem
  induction rem with
  | zero => intro i st herr _; exact ⟨rfl, rfl, herr⟩
  | succ rem ih =>
    intro i st herr hall
    obtain ⟨r, hr, hne⟩ := hall i (Nat.le_refl i) (by omega)
    have hc : r.toolCalls.isEmpty = false := by
      rcases hcc : r.toolCalls with _ | ⟨a, l⟩
      · exact absurd hcc hne
      · rfl
    simp only [toolLoopAux, hr, hc, Bool.false_eq_true, if_false]
    refine ih (i + 1) _ ?_ ?_
    · rw [(foldl_processOneCall_inv env i _ _).2]
      exact herr
    · intro j hj1 hj2
      exact hall j (by omega) (by omega)

/-- Claim C9: for any sequence of backend replies the tool-call loop performs
at most `maxIterations = 5` iterations; and when every reply carries tool
calls (with no pre-read short-circuit in play), reaching the cap ends the loop
with the fixed sentinel final answer, `running = false`, and no error. -/
theorem toolLoop_bounded_and_exhaustion :
    (∀ (env : LoopEnv) (perms0 : List Permission) (intent : String)
        (preRead : Option String) (directResp : Except String String)
        (responses : Nat → Except String LLMResponse),
      (runToolCallLoop env perms0 intent preRead directResp responses).iterationsUsed
        ≤ maxIterations)
    ∧ (∀ (env : LoopEnv) (perms0 : List Permission) (intent : String)
        (directResp : Except String String)
        (responses : Nat → Except String LLMResponse),
      (∀ j, j < maxIterations → ∃ r, responses j = Except.ok r ∧ r.toolCalls ≠ []) →
      (runToolCallLoop env perms0 intent none directResp responses).finalAnswer
          = "(Reached maximum tool call iterations)"
      ∧ (runToolCallLoop env perms0 intent none directResp responses).running = false
      ∧ (runToolCallLoop env perms0 intent none directResp responses).error = none) := by
  constructor
  · intro env perms0 intent preRead directResp responses
    rcases preRead with _ | s
    · refine le_trans (toolLoopAux_iterations_le env responses maxIterations 0 _) ?_
      simp [runToolCallLoop]
    · rcases directResp with e | c
      · refine le_trans (toolLoopAux_iterations_le env responses maxIterations 0 _) ?_
        simp [runToolCallLoop]
      · simp only [runToolCallLoop]
        by_cases hacc : (!(trimString c).isEmpty
            && !matchAt (trimString c).toList toolMarker
            && decide ((trimString c).length > 10)) = true
        · simp only [hacc, eq_self_iff_true, if_true]
          simp [maxIterations]
        · simp only [Bool.not_eq_true] at hacc
          simp only [hacc, Bool.false_eq_true, if_false]
          refine le_trans (toolLoopAux_iterations_le env responses maxIterations 0 _) ?_
          simp
  · intro env perms0 intent directResp responses hall
    have h := toolLoopAux_exhaust env responses maxIterations 0
      { running := true, calls := [], finalAnswer := "", error := none,
        ledger := { dataEntries := [], auditEvents := [], totalTokens := 0, contextUsed := 0 },
        perms := perms0,
        messages :=
          [{ role := "system",
             content := "You are a helpful browser AI assistant. You have access to tools. Use tools when needed (call read_page first if you need page content). Be concise." },
           { role := "user", content := intent }],
        trace := [.dispatch "read_page"],
        callIdx := 0, iterationsUsed := 0 }
      rfl (fun j _ hj2 => hall j (by omega))
    rcases directResp with e | c
    · exact h
    · exact h

/-- Witness for C9 at concrete inputs: a backend that always returns a tool
call exhausts the five iterations and ends with the sentinel. -/
theorem toolLoop_bounded_and_exhaustion_witness :
    (runToolCallLoop cloudEnv [] "do the task" none (.error "no page")
        (fun _ => .ok { content := "", toolCalls := [{ name := "read_page", argsRepr := "\x7b\x7d" }] })).finalAnswer
      = "(Reached maximum tool call iterations)"
    ∧ (runToolCallLoop cloudEnv [] "do the task" none (.error "no page")
        (fun _ => .ok { content := "", toolCalls := [{ name := "read_page", argsRepr := "\x7b\x7d" }] })).running = false
    ∧ (runToolCallLoop cloudEnv [] "do the task" none (.error "no page")
        (fun _ => .ok { content := "", toolCalls := [{ name := "read_page", argsRepr := "\x7b\x7d" }] })).error = none :=
  toolLoop_bounded_and_exhaustion.2 cloudEnv [] "do the task" (.error "no page")
    (fun _ => .ok { content := "", toolCalls := [{ name := "read_page", argsRepr := "\x7b\x7d" }] })
    (fun j _ => ⟨{ content := "", toolCalls := [{ name := "read_page", argsRepr := "\x7b\x7d" }] },
      rfl, by decide⟩)

lemma braceDelta_cons_close (l : List Char) :
    braceDelta ('}' :: l) = braceDelta l - 1 := by
  simp [braceDelta, List.count_cons]
  ring

lemma braceDelta_cons_open (l : List Char) :
    braceDelta ('{' :: l) = braceDelta l + 1 := by
  simp [braceDelta, List.count_cons]
  ring

lemma braceDelta_cons_other (c : Char) (l : List Char) (h1 : (c == '{') = false)
    (h2 : (c == '}') = false) : braceDelta (c :: l) = braceDelta l := by
  simp [braceDelta, List.count_cons, h1, h2]

lemma scanToClose_spec :
    ∀ (cs : List Char) (d : Int) (n : Nat), scanToClose cs d = some n →
      0 < n ∧ n ≤ cs.length ∧ d + braceDelta (cs.take n) = 0
        ∧ cs.get? (n - 1) = some '}' := by
  intro cs
  induction cs with
  | nil => intro d n h; exact absurd h (by simp [scanToClose])
  | cons c cs ih =>
    intro d n h
    simp only [scanToClose] at h
    by_cases hb : (c == '}') = true
    · have hc : c = '}' := eq_of_beq hb
      subst hc
      simp only [show (('}' : Char) == '{') = false from rfl,
        show (('}' : Char) == '}') = true from rfl, Bool.false_eq_true, if_false,
        eq_self_iff_true, if_true] at h
      by_cases hd : d - 1 = 0
      · rw [if_pos hd] at h
        injection h with h1
        subst h1
        refine ⟨Nat.one_pos, Nat.succ_le_succ (Nat.zero_le _), ?_, rfl⟩
        rw [List.take_succ_cons, List.take_zero, braceDelta_cons_close]
        have hz : braceDelta ([] : List Char) = 0 := by decide
        omega
      · rw [if_neg hd] at h
        obtain ⟨m, hm, hn⟩ := Option.map_eq_some'.mp h
        subst hn
        obtain ⟨h1, h2, h3, h4⟩ := ih (d - 1) m hm
        obtain ⟨m', rfl⟩ : ∃ m', m = m' + 1 := ⟨m - 1, by omega⟩
        refine ⟨Nat.succ_pos _, Nat.succ_le_succ h2, ?_, ?_⟩
        · rw [List.take_succ_cons, braceDelta_cons_close]
          omega
        · simpa using h4
    · have hb2 : (c == '}') = false := by
        simp only [Bool.not_eq_true] at hb
        exact hb
      simp only [hb2, Bool.false_eq_true, if_false] at h
      by_cases ho : (c == '{') = true
      · have hc : c = '{' := eq_of_beq ho
        subst hc
        simp only [show (('{' : Char) == '{') = true from rfl, eq_self_iff_true,
          if_true] at h
        obtain ⟨m, hm, hn⟩ := Option.map_eq_some'.mp h
        subst hn
        obtain ⟨h1, h2, h3, h4⟩ := ih (d + 1) m hm
        obtain ⟨m', rfl⟩ : ∃ m', m = m' + 1 := ⟨m - 1, by omega⟩
        refine ⟨Nat.succ_pos _, Nat.succ_le_succ h2, ?_, ?_⟩
        · rw [List.take_succ_cons, braceDelta_cons_open]
          omega
        · simpa using h4
      · have ho2 : (c == '{') = false := by
          simp only [Bool.not_eq_true] at ho
          exact ho
        simp only [ho2, Bool.false_eq_true, if_false] at h
        obtain ⟨m, hm, hn⟩ := Option.map_eq_some'.mp h
        subst hn
        obtain ⟨h1, h2, h3, h4⟩ := ih d m hm
        obtain ⟨m', rfl⟩ : ∃ m', m = m' + 1 := ⟨m - 1, by omega⟩
        refine ⟨Nat.succ_pos _, Nat.succ_le_succ h2, ?_, ?_⟩
        · rw [List.take_succ_cons, braceDelta_cons_other c _ ho2 hb2]
          omega
        · simpa using h4

lemma indexOfFrom_spec :
    ∀ (cs p : List Char) (si : Nat), indexOfFrom p cs = some si →
      matchAt (cs.drop si) p = true
      ∧ ∀ j, j < si → matchAt (cs.drop j) p = false := by
  intro cs
  induction cs with
  | nil =>
    intro p si h
    simp only [indexOfFrom] at h
    by_cases hm : matchAt [] p = true
    · rw [if_pos hm] at h
      injection h with h1
      subst h1
      exact ⟨hm, fun j hj => absurd hj (Nat.not_lt_zero j)⟩
    · rw [if_neg hm] at h
      exact absurd h (by simp)
  | cons c cs ih =>
    intro p si h
    simp only [indexOfFrom] at h
    by_cases hm : matchAt (c :: cs) p = true
    · rw [if_pos hm] at h
      injection h with h1
      subst h1
      exact ⟨hm, fun j hj => absurd hj (Nat.not_lt_zero j)⟩
    · rw [if_neg hm] at h
      obtain ⟨m, hm', hn⟩ := Option.map_eq_some'.mp h
      subst hn
      obtain ⟨g1, g2⟩ := ih p m hm'
      refine ⟨by simpa using g1, ?_⟩
      intro j hj
      cases j with
      | zero =>
        simp only [List.drop_zero]
        simp only [Bool.not_eq_true] at hm
        exact hm
      | succ j =>
        simpa using g2 j (by omega)

/-- Claim C8: the fallback tool-call parse yields a call only when the fixed
marker occurs in the text — at its first occurrence — and the brace-depth
scan from there returns to zero before end-of-text at a closing brace
(`braceDelta` of the matched slice is zero); an absent marker or a scan that
never returns to zero yields no tool call, and the parse is a total function,
so it never raises an error. -/
theorem fallback_embedded_toolcall_parse_sound (jp : String → Option ParsedToolJson)
    (content : String) :
    (∀ tc, parseEmbeddedToolCall jp content = some tc →
      ∃ si len, indexOfFrom toolMarker content.toList = some si
        ∧ matchAt (content.toList.drop si) toolMarker = true
        ∧ (∀ j, j < si → matchAt (content.toList.drop j) toolMarker = false)
        ∧ scanToClose (content.toList.drop si) 0 = some len
        ∧ 0 < len ∧ len ≤ (content.toList.drop si).length
        ∧ braceDelta ((content.toList.drop si).take len) = 0
        ∧ (content.toList.drop si).get? (len - 1) = some '}')
    ∧ (indexOfFrom toolMarker content.toList = none →
        parseEmbeddedToolCall jp content = none)
    ∧ (∀ si, indexOfFrom toolMarker content.toList = some si →
        scanToClose (content.toList.drop si) 0 = none →
        parseEmbeddedToolCall jp content = none) := by
  refine ⟨?_, ?_, ?_⟩
  · intro tc h
    simp only [parseEmbeddedToolCall, extractToolSlice] at h
    rcases hidx : indexOfFrom toolMarker content.toList with _ | si
    · have hidx2 : indexOfFrom toolMarker content.data = none := hidx
      simp [hidx2] at h
    · rcases hscan : scanToClose (content.toList.drop si) 0 with _ | len
      · have hidx2 : indexOfFrom toolMarker content.data = some si := hidx
        have hscan2 : scanToClose (List.drop si content.data) 0 = none := hscan
        simp [hidx2, hscan2] at h
      · obtain ⟨g1, g2⟩ := indexOfFrom_spec content.toList toolMarker si hidx
        obtain ⟨s1, s2, s3, s4⟩ := scanToClose_spec (content.toList.drop si) 0 len hscan
        exact ⟨si, len, rfl, g1, g2, hscan, s1, s2, by simpa using s3, s4⟩
  · intro hidx
    simp only [parseEmbeddedToolCall, extractToolSlice, hidx]
  · intro si hidx hscan
    simp only [parseEmbeddedToolCall, extractToolSlice, hidx, hscan]

/-- Witness for C8 at concrete inputs: a well-formed embedded call is located
at the marker with a balanced slice, and marker-free text yields no call. -/
theorem fallback_embedded_toolcall_parse_sound_witness :
    (∃ si len,
      indexOfFrom toolMarker ("result: \x7b\"tool\": \"read_page\", \"args\": \x7b\x7d\x7d done").toList
        = some si
      ∧ matchAt (("result: \x7b\"tool\": \"read_page\", \"args\": \x7b\x7d\x7d done").toList.drop si) toolMarker = true
      ∧ (∀ j, j < si →
          matchAt (("result: \x7b\"tool\": \"read_page\", \"args\": \x7b\x7d\x7d done").toList.drop j) toolMarker = false)
      ∧ scanToClose (("result: \x7b\"tool\": \"read_page\", \"args\": \x7b\x7d\x7d done").toList.drop si) 0 = some len
      ∧ 0 < len
      ∧ len ≤ (("result: \x7b\"tool\": \"read_page\", \"args\": \x7b\x7d\x7d done").toList.drop si).length
      ∧ braceDelta ((("result: \x7b\"tool\": \"read_page\", \"args\": \x7b\x7d\x7d done").toList.drop si).take len) = 0
      ∧ (("result: \x7b\"tool\": \"read_page\", \"args\": \x7b\x7d\x7d done").toList.drop si).get? (len - 1) = some '}')
    ∧ parseEmbeddedToolCall (fun s => some { tool := "read_page", argsRepr := s })
        "just a plain answer" = none :=
  ⟨(fallback_embedded_toolcall_parse_sound
      (fun s => some { tool := "read_page", argsRepr := s })
      "result: \x7b\"tool\": \"read_page\", \"args\": \x7b\x7d\x7d done").1
      { name := "read_page", argsRepr := "\x7b\"tool\": \"read_page\", \"args\": \x7b\x7d\x7d" }
      (by decide),
   (fallback_embedded_toolcall_parse_sound
      (fun s => some { tool := "read_page", argsRepr := s })
      "just a plain answer").2.1 (by decide)⟩

/-- Counterexample to claim C7: a structured tool-calling request rejected by
the backend with a client error other than 400 is not retried.  With HTTP 404
the gateway issues exactly one request and throws `Ollama error: 404` instead
of retrying with a textual tool catalog. -/
theorem llmChat_client_error_404_not_retried :
    (llmChatOllama (fun _ => none)
        (fun _ => { ok := false, status := 404, content := none, tool_calls := none })
        [{ role := "user", content := "hi" }]
        (some [{ name := "read_page", description := "d", paramsRepr := "\x7b\x7d" }])).1
      = .error (.ollamaError 404)
    ∧ (llmChatOllama (fun _ => none)
        (fun _ => { ok := false, status := 404, content := none, tool_calls := none })
        [{ role := "user", content := "hi" }]
        (some [{ name := "read_page", description := "d", paramsRepr := "\x7b\x7d" }])).2.length
      = 1 :=
  ⟨rfl, rfl⟩

/-- Claim C7 as amended (HTTP 400, not an arbitrary client error): when a
structured tool-calling request is rejected with HTTP 400 on the first call,
the gateway retries the same turn exactly once — issuing exactly two requests,
the second with the tools removed and the textual tool catalog and
instructions appended to each outgoing system message — and parses the retry
reply for an embedded tool-call object, returning a well-formed embedded call
as if it had been native. -/
theorem llmChat_400_retries_once_with_catalog (jp : String → Option ParsedToolJson)
    (backend : OllamaRequest → OllamaHttpResponse)
    (messages : List ChatMessage) (ts : List ToolSchema)
    (hts : ts ≠ [])
    (hok : (backend { messages := messages, tools := some ts }).ok = false)
    (hst : (backend { messages := messages, tools := some ts }).status = 400) :
    ((llmChatOllama jp backend messages (some ts)).2
        = [{ messages := messages, tools := some ts },
           { messages := fallbackMessages messages ts, tools := none }])
    ∧ (∀ m ∈ messages, m.role = "system" →
        (⟨m.role, m.content ++
            (if occursIn ("Current page content:".toList) m.content.toList
             then toolInstructionsWithPage (toolDescriptionLines ts)
             else toolInstructionsNoPage (toolDescriptionLines ts))⟩ : ChatMessage)
          ∈ fallbackMessages messages ts)
    ∧ ((backend { messages := fallbackMessages messages ts, tools := none }).ok = true →
        ∀ tc, parseEmbeddedToolCall jp
            ((backend { messages := fallbackMessages messages ts, tools := none }).content.getD "")
          = some tc →
        (llmChatOllama jp backend messages (some ts)).1
          = .ok { content := "", processingLocation := "local", toolCalls := [tc] }) := by
  have hne : ts.isEmpty = false := by
    cases ts with
    | nil => exact absurd rfl hts
    | cons a l => rfl
  refine ⟨?_, ?_, ?_⟩
  · simp only [llmChatOllama, Option.getD_some, hne, Bool.not_false, eq_self_iff_true,
      if_true, hok, hst, beq_self_eq_true, Bool.true_and, Bool.and_true, Bool.and_self]
    by_cases h2 : (backend { messages := fallbackMessages messages ts, tools := none }).ok = true
    · simp only [h2, Bool.not_true, Bool.false_eq_true, if_false]
      rcases hp : parseEmbeddedToolCall jp
          ((backend { messages := fallbackMessages messages ts, tools := none }).content.getD "")
        with _ | tc <;> simp [hp]
    · simp only [Bool.not_eq_true] at h2
      simp only [h2, Bool.not_false, eq_self_iff_true, if_true]
  · intro m hm hrole
    unfold fallbackMessages
    refine List.mem_map.mpr ⟨m, hm, ?_⟩
    simp [addToolInstructions, hrole]
  · intro h2ok tc hp
    simp only [llmChatOllama, Option.getD_some, hne, Bool.not_false, eq_self_iff_true,
      if_true, hok, hst, beq_self_eq_true, Bool.true_and, Bool.and_true, Bool.and_self,
      h2ok, Bool.not_true, Bool.false_eq_true, if_false, hp]

/-- Witness for the amended C7 at concrete inputs: a backend that rejects the
structured request with 400 and answers the retry with an embedded call. -/
theorem llmChat_400_retries_once_with_catalog_witness :
    ((llmChatOllama (fun s => some { tool := "read_page", argsRepr := s })
        (fun r => if r.tools.isSome
          then { ok := false, status := 400, content := none, tool_calls := none }
          else { ok := true, status := 200,
                 content := some "\x7b\"tool\": \"read_page\", \"args\": \x7b\x7d\x7d",
                 tool_calls := none })
        [{ role := "system", content := "You are a helpful browser AI assistant." }]
        (some [{ name := "read_page", description := "d", paramsRepr := "\x7b\x7d" }])).2
      = [{ messages := [{ role := "system", content := "You are a helpful browser AI assistant." }],
           tools := some [{ name := "read_page", description := "d", paramsRepr := "\x7b\x7d" }] },
         { messages := fallbackMessages
             [{ role := "system", content := "You are a helpful browser AI assistant." }]
             [{ name := "read_page", description := "d", paramsRepr := "\x7b\x7d" }],
           tools := none }])
    ∧ (llmChatOllama (fun s => some { tool := "read_page", argsRepr := s })
        (fun r => if r.tools.isSome
          then { ok := false, status := 400, content := none, tool_calls := none }
          else { ok := true, status := 200,
                 content := some "\x7b\"tool\": \"read_page\", \"args\": \x7b\x7d\x7d",
                 tool_calls := none })
        [{ role := "system", content := "You are a helpful browser AI assistant." }]
        (some [{ name := "read_page", description := "d", paramsRepr := "\x7b\x7d" }])).1
      = .ok { content := "", processingLocation := "local",
              toolCalls :=
                [{ name := "read_page",
                   argsRepr := "\x7b\"tool\": \"read_page\", \"args\": \x7b\x7d\x7d" }] } :=
  ⟨(llmChat_400_retries_once_with_catalog (fun s => some { tool := "read_page", argsRepr := s })
      (fun r => if r.tools.isSome
        then { ok := false, status := 400, content := none, tool_calls := none }
        else { ok := true, status := 200,
               content := some "\x7b\"tool\": \"read_page\", \"args\": \x7b\x7d\x7d",
               tool_calls := none })
      [{ role := "system", content := "You are a helpful browser AI assistant." }]
      [{ name := "read_page", description := "d", paramsRepr := "\x7b\x7d" }]
      (by decide) rfl rfl).1,
   (llmChat_400_retries_once_with_catalog (fun s => some { tool := "read_page", argsRepr := s })
      (fun r => if r.tools.isSome
        then { ok := false, status := 400, content := none, tool_calls := none }
        else { ok := true, status := 200,
               content := some "\x7b\"tool\": \"read_page\", \"args\": \x7b\x7d\x7d",
               tool_calls := none })
      [{ role := "system", content := "You are a helpful browser AI assistant." }]
      [{ name := "read_page", description := "d", paramsRepr := "\x7b\x7d" }]
      (by decide) rfl rfl).2.2 rfl
      { name := "read_page", argsRepr := "\x7b\"tool\": \"read_page\", \"args\": \x7b\x7d\x7d" }
      (by decide)⟩

end OpenLens
